import Mathlib

/-!
Shallow embedding of the inx-app node-bridge core (package `nodebridge` and
`pkg/pow`), together with theorems settling the specification claims about

* output unwrapping with output-ID-proof verification (`outputs.go`),
* the ledger-update batch reassembler (`ledger.go`),
* the synchronized node-status cache (`node_status.go`, both the v3-era
  revision with protocol-parameter decoding and the v4-era revision with
  separate cached commitments),
* the generic stream pump `ListenToStream` (`node_bridge.go`),
* the tangle listener's acceptance registries (`tangle_listener.go`),
* proof-of-work mining (`pow/pow.go`).

External collaborators (the gRPC wire, the iotago codec, the hive.go
`valuenotifier`) are embedded as data: each wire record carries the results
the external codec would produce for it, and stream receives / metadata
queries are lists of outcomes supplied as inputs.
-/

namespace InxApp

/-- `iotago.CommitmentID`: a commitment identifier; it encodes the slot
(`.Slot()` in the source) plus identifying hash bytes. -/
structure CommitmentID where
  slot : Nat
  hash : Nat
deriving DecidableEq, Repr

/-- Zero value `iotago.EmptyCommitmentID`. -/
def emptyCommitmentID : CommitmentID := ⟨0, 0⟩

/-- `iotago.OutputID`: transaction ID plus output index; `.Slot()` is the
creation slot encoded in the transaction ID. -/
structure OutputID where
  txID : Nat
  index : Nat
  creationSlot : Nat
deriving DecidableEq, Repr

/-- Errors of the external iotago codec (decode failures etc.). -/
inductive CodecErr
  | decodeFailed (code : Nat)
deriving DecidableEq, Repr

deriving instance DecidableEq for Except

/-- `iotago.TxEssenceOutput`, abstract: the decoded output object. -/
structure TxOutput where
  raw : Nat
deriving DecidableEq, Repr

/-- `iotago.OutputIDProof`, abstract: the decoded output-ID proof object. -/
structure OutputIDProof where
  raw : Nat
deriving DecidableEq, Repr

/-- `inx.LedgerOutput`: one wire record for an output.  The three `Except`
fields embed the results of the external codec calls the source makes on the
record: `UnwrapOutput(api)`, `UnwrapOutputIDProof(api)` and
`outputIDProof.OutputID(output)` (both objects come deterministically from
the record, so the derived-ID result is a function of the record as well). -/
structure LedgerOutput where
  outputID : OutputID
  blockID : Nat
  slotBooked : Nat
  commitmentIDIncluded : Option CommitmentID
  rawData : Nat
  unwrapOutputResult : Except CodecErr TxOutput
  unwrapProofResult : Except CodecErr OutputIDProof
  derivedOutputIDResult : Except CodecErr OutputID
deriving DecidableEq, Repr

/-- `inx.LedgerSpent`: a spent record wrapping an output record. -/
structure LedgerSpent where
  output : LedgerOutput
  commitmentIDSpent : Option CommitmentID
  transactionIDSpent : Nat
  slotSpent : Nat
deriving DecidableEq, Repr

/-- The fields of `api.OutputMetadata` populated by `unwrapOutput`. -/
structure OutputMetadata where
  blockID : Nat
  transactionID : Nat
  outputIndex : Nat
  includedCommitmentID : CommitmentID
  isSpent : Bool
  commitmentIDSpent : CommitmentID
  transactionIDSpent : Nat
  latestCommitmentID : CommitmentID
deriving DecidableEq, Repr

/-- `nodebridge.Output` (ledger.go): unwrapped output plus metadata. -/
structure Output where
  outputID : OutputID
  output : TxOutput
  outputIDProof : OutputIDProof
  metadata : OutputMetadata
  slotBooked : Nat
  slotSpent : Nat
  rawOutputData : Nat
deriving DecidableEq, Repr

/-- Errors of `unwrapOutput`: a wrapped codec error, or the output-ID
mismatch error ("output ID mismatch. Expected %s, got %s"). -/
inductive UnwrapErr
  | codec (e : CodecErr)
  | outputIDMismatch (expected got : OutputID)
deriving DecidableEq, Repr

/-- The metadata block built at the top of `unwrapOutput` (outputs.go),
including the mutation applied when `inxSpent != nil`. -/
def unwrapMetadata (inxOutput : LedgerOutput) (inxSpent : Option LedgerSpent)
    (latestCommitmentID : CommitmentID) : OutputMetadata :=
  let base : OutputMetadata :=
    { blockID := inxOutput.blockID
      transactionID := inxOutput.outputID.txID
      outputIndex := inxOutput.outputID.index
      includedCommitmentID :=
        match inxOutput.commitmentIDIncluded with
        | some c => c
        | none => emptyCommitmentID
      isSpent := false
      commitmentIDSpent := emptyCommitmentID
      transactionIDSpent := 0
      latestCommitmentID := latestCommitmentID }
  match inxSpent with
  | some spent =>
      { base with
          isSpent := true
          commitmentIDSpent :=
            match spent.commitmentIDSpent with
            | some c => c
            | none => emptyCommitmentID
          transactionIDSpent := spent.transactionIDSpent }
  | none => base

/-- `slotSpent` as set by `unwrapOutput`: zero unless a spent record exists. -/
def unwrapSlotSpent (inxSpent : Option LedgerSpent) : Nat :=
  match inxSpent with
  | some spent => spent.slotSpent
  | none => 0

/-- `nodeBridge.unwrapOutput` (outputs.go): build the metadata, decode the
output and its ID proof, derive the output ID from the proof and reject the
record when the derived ID differs from the claimed one. -/
def unwrapOutput (inxOutput : LedgerOutput) (inxSpent : Option LedgerSpent)
    (latestCommitmentID : CommitmentID) : Except UnwrapErr Output :=
  match inxOutput.unwrapOutputResult with
  | .error e => .error (.codec e)
  | .ok output =>
    match inxOutput.unwrapProofResult with
    | .error e => .error (.codec e)
    | .ok outputIDProof =>
      match inxOutput.derivedOutputIDResult with
      | .error e => .error (.codec e)
      | .ok derivedOutputID =>
        if derivedOutputID ≠ inxOutput.outputID then
          .error (.outputIDMismatch inxOutput.outputID derivedOutputID)
        else
          .ok { outputID := inxOutput.outputID
                output := output
                outputIDProof := outputIDProof
                metadata := unwrapMetadata inxOutput inxSpent latestCommitmentID
                slotBooked := inxOutput.slotBooked
                slotSpent := unwrapSlotSpent inxSpent
                rawOutputData := inxOutput.rawData }

/-- The metadata built by `unwrapMetadata` carries the supplied
`latestCommitmentID` unchanged. -/
theorem unwrapMetadata_latest (inxOutput : LedgerOutput) (inxSpent : Option LedgerSpent)
    (latest : CommitmentID) :
    (unwrapMetadata inxOutput inxSpent latest).latestCommitmentID = latest := by
  unfold unwrapMetadata
  cases inxSpent <;> rfl

/-- Characterization of a successful `unwrapOutput`: all three codec calls
succeed, the derived ID equals the claimed one, and the result is assembled
from the record's fields. -/
theorem unwrapOutput_ok_iff (inxOutput : LedgerOutput) (inxSpent : Option LedgerSpent)
    (latest : CommitmentID) (o : Output) :
    unwrapOutput inxOutput inxSpent latest = .ok o ↔
      ∃ output : TxOutput, ∃ proof : OutputIDProof,
        inxOutput.unwrapOutputResult = .ok output ∧
        inxOutput.unwrapProofResult = .ok proof ∧
        inxOutput.derivedOutputIDResult = .ok inxOutput.outputID ∧
        o = { outputID := inxOutput.outputID
              output := output
              outputIDProof := proof
              metadata := unwrapMetadata inxOutput inxSpent latest
              slotBooked := inxOutput.slotBooked
              slotSpent := unwrapSlotSpent inxSpent
              rawOutputData := inxOutput.rawData } := by
  constructor
  · intro h
    unfold unwrapOutput at h
    cases hs : inxOutput.unwrapOutputResult with
    | error e => rw [hs] at h; cases h
    | ok output =>
      rw [hs] at h
      cases hp : inxOutput.unwrapProofResult with
      | error e => rw [hp] at h; cases h
      | ok proof =>
        rw [hp] at h
        cases hd : inxOutput.derivedOutputIDResult with
        | error e => rw [hd] at h; cases h
        | ok derived =>
          rw [hd] at h
          dsimp only at h
          by_cases hne : derived = inxOutput.outputID
          · subst hne
            rw [if_neg (not_not_intro rfl)] at h
            injection h with h
            exact ⟨output, proof, rfl, rfl, rfl, h.symm⟩
          · rw [if_pos hne] at h; cases h
  · rintro ⟨output, proof, hs, hp, hd, rfl⟩
    unfold unwrapOutput
    rw [hs, hp, hd]
    dsimp only
    rw [if_neg (not_not_intro rfl)]

/-- An `Output` constructed by `unwrapOutput` carries the `latestCommitmentID`
argument in its metadata. -/
theorem unwrapOutput_latest (inxOutput : LedgerOutput) (inxSpent : Option LedgerSpent)
    (latest : CommitmentID) (o : Output)
    (h : unwrapOutput inxOutput inxSpent latest = .ok o) :
    o.metadata.latestCommitmentID = latest := by
  obtain ⟨output, proof, -, -, -, rfl⟩ := (unwrapOutput_ok_iff _ _ _ _).1 h
  exact unwrapMetadata_latest inxOutput inxSpent latest

/-- C3: For every node record unwrapped into an `Output`, the output ID
derived from the record's identity proof equals the ID the node claims, and
the constructed `Output` carries exactly the claimed (= derived) ID; whenever
the derived ID differs from the claimed one, `unwrapOutput` returns an error
and no `Output` value is constructed. -/
theorem unwrapOutput_id_verified (inxOutput : LedgerOutput)
    (inxSpent : Option LedgerSpent) (latest : CommitmentID) :
    (∀ o : Output, unwrapOutput inxOutput inxSpent latest = .ok o →
      o.outputID = inxOutput.outputID ∧
      inxOutput.derivedOutputIDResult = .ok inxOutput.outputID) ∧
    (∀ d : OutputID, inxOutput.derivedOutputIDResult = .ok d →
      d ≠ inxOutput.outputID →
      ∃ e : UnwrapErr, unwrapOutput inxOutput inxSpent latest = .error e) := by
  constructor
  · intro o h
    obtain ⟨output, proof, -, -, hd, rfl⟩ := (unwrapOutput_ok_iff _ _ _ _).1 h
    exact ⟨rfl, hd⟩
  · intro d hd hne
    unfold unwrapOutput
    cases hs : inxOutput.unwrapOutputResult with
    | error e => exact ⟨.codec e, rfl⟩
    | ok output =>
      cases hp : inxOutput.unwrapProofResult with
      | error e => exact ⟨.codec e, rfl⟩
      | ok proof =>
        rw [hd]
        exact ⟨.outputIDMismatch inxOutput.outputID d, by simp [hne]⟩

/-- Witness for `unwrapOutput_id_verified`: a concrete record whose proof
derives ID `⟨2,0,0⟩` while the node claims `⟨1,0,0⟩` is rejected. -/
theorem unwrapOutput_id_verified_witness :
    ∃ e : UnwrapErr,
      unwrapOutput
        { outputID := ⟨1, 0, 0⟩, blockID := 0, slotBooked := 0
          commitmentIDIncluded := none, rawData := 0
          unwrapOutputResult := .ok ⟨0⟩
          unwrapProofResult := .ok ⟨0⟩
          derivedOutputIDResult := .ok ⟨2, 0, 0⟩ } none emptyCommitmentID = .error e :=
  (unwrapOutput_id_verified
    { outputID := ⟨1, 0, 0⟩, blockID := 0, slotBooked := 0
      commitmentIDIncluded := none, rawData := 0
      unwrapOutputResult := .ok ⟨0⟩
      unwrapProofResult := .ok ⟨0⟩
      derivedOutputIDResult := .ok ⟨2, 0, 0⟩ } none emptyCommitmentID).2
    ⟨2, 0, 0⟩ rfl (by decide)

/-! ## Ledger update reassembly (`ledger.go`, `ListenToLedgerUpdates`) -/

/-- `iotago.API` value for a slot, abstract (the bridge asks its
`apiProvider.APIForSlot`; we model an API value as an opaque token). -/
abbrev ApiToken := Nat

/-- `inx.LedgerUpdate_Marker` marker type: the `BEGIN` / `END` cases the
consumer switches on. -/
inductive MarkerType
  | BEGIN
  | END
deriving DecidableEq, Repr

/-- `inx.LedgerUpdate_Marker`: commitment ID plus the declared consumed and
created counts (uint32 wire fields). -/
structure BatchMarker where
  markerType : MarkerType
  commitmentID : CommitmentID
  consumedCount : Nat
  createdCount : Nat
deriving DecidableEq, Repr

/-- The `oneof Op` payload of one `inx.LedgerUpdate` stream item. -/
inductive LedgerOpPayload
  | batchMarker (m : BatchMarker)
  | consumed (spent : LedgerSpent)
  | created (out : LedgerOutput)
deriving DecidableEq, Repr

/-- `nodebridge.LedgerUpdate`: the in-flight batch accumulator. -/
structure LedgerUpdate where
  api : ApiToken
  commitmentID : CommitmentID
  consumed : List Output
  created : List Output
deriving DecidableEq, Repr

/-- The consumer-loop state of `ListenToLedgerUpdates`: the `update`
accumulator pointer and the `latestCommitmentID` variable captured at each
begin marker. -/
structure LedgerStreamState where
  update : Option LedgerUpdate
  latestCommitmentID : CommitmentID
deriving DecidableEq, Repr

/-- Initial loop state: no open batch, zero-valued captured commitment ID. -/
def initLedgerStreamState : LedgerStreamState := ⟨none, emptyCommitmentID⟩

/-- Errors raised by the `ListenToLedgerUpdates` consumer:
`ErrLedgerUpdateTransactionAlreadyInProgress`,
`ErrLedgerUpdateInvalidOperation`, `ErrLedgerUpdateEndedAbruptly`, a wrapped
`unwrapOutput` failure, or an error returned by the registered consumer. -/
inductive LedgerErr
  | alreadyInProgress
  | invalidOperation
  | endedAbruptly
  | unwrapFailed (e : UnwrapErr)
  | consumerError (e : Nat)
deriving DecidableEq, Repr

/-- Go's `uint32(n)` conversion: truncation modulo `2^32`. -/
def uint32 (n : Nat) : Nat := n % 4294967296

/-- One iteration of the `ListenToLedgerUpdates` consumer closure.
`cacheLatest` is the value `n.LatestCommitment().CommitmentID` would return
at this moment (the status cache advances concurrently with this stream, so
it is an input of each step); `consumer` returns `some e` when the registered
consumer errors.  Result: new state, the update handed to the consumer at
this step (if any), and the error aborting the stream (if any). -/
def processLedgerOp (apiForSlot : Nat → ApiToken)
    (consumer : LedgerUpdate → Option Nat) (cacheLatest : CommitmentID)
    (st : LedgerStreamState) (payload : LedgerOpPayload) :
    LedgerStreamState × Option LedgerUpdate × Option LedgerErr :=
  match payload with
  | .batchMarker m =>
    match m.markerType with
    | .BEGIN =>
      match st.update with
      | some _ => (st, none, some .alreadyInProgress)
      | none =>
        ({ update := some
            { api := apiForSlot m.commitmentID.slot
              commitmentID := m.commitmentID
              consumed := []
              created := [] }
           latestCommitmentID := cacheLatest }, none, none)
    | .END =>
      match st.update with
      | none => (st, none, some .invalidOperation)
      | some update =>
        if uint32 update.consumed.length ≠ uint32 m.consumedCount ∨
            uint32 update.created.length ≠ uint32 m.createdCount ∨
            update.commitmentID ≠ m.commitmentID then
          (st, none, some .endedAbruptly)
        else
          match consumer update with
          | some e => (st, some update, some (.consumerError e))
          | none => ({ st with update := none }, some update, none)
  | .consumed spent =>
    match st.update with
    | none => (st, none, some .invalidOperation)
    | some update =>
      match unwrapOutput spent.output (some spent) st.latestCommitmentID with
      | .error e => (st, none, some (.unwrapFailed e))
      | .ok output =>
        ({ st with update := some { update with consumed := update.consumed ++ [output] } },
          none, none)
  | .created out =>
    match st.update with
    | none => (st, none, some .invalidOperation)
    | some update =>
      match unwrapOutput out none st.latestCommitmentID with
      | .error e => (st, none, some (.unwrapFailed e))
      | .ok output =>
        ({ st with update := some { update with created := update.created ++ [output] } },
          none, none)

/-- One stream item together with the status cache's latest commitment ID at
the moment the item is processed. -/
structure LedgerStep where
  payload : LedgerOpPayload
  cacheLatest : CommitmentID
deriving DecidableEq, Repr

/-- Run the `ListenToLedgerUpdates` consumer over a stream of items,
collecting the updates handed to the consumer; processing stops at the first
error, which is returned. -/
def runLedgerOps (apiForSlot : Nat → ApiToken)
    (consumer : LedgerUpdate → Option Nat) :
    LedgerStreamState → List LedgerStep → List LedgerUpdate × Option LedgerErr
  | _, [] => ([], none)
  | st, s :: rest =>
    match processLedgerOp apiForSlot consumer s.cacheLatest st s.payload with
    | (_, d, some e) => (d.toList, some e)
    | (st', d, none) =>
      let r := runLedgerOps apiForSlot consumer st' rest
      (d.toList ++ r.1, r.2)

/-- Modelled from the spec: error classes of §4.3's reassembly state
machine — begin-marker while a batch is open, record or end-marker while no
batch is open, end-marker whose declared counts or commitment ID do not match
the batch, and a record failing its identity-proof verification. -/
inductive ReassemblySpecErr
  | doubleBegin
  | strayOperation
  | countOrIDMismatch
  | badRecord
deriving DecidableEq, Repr

/-- Modelled from the spec: a record "verifies its identity proof" when the
codec decodes its output and proof and the derived output ID equals the
claimed one (§3, §4.3). -/
def recordVerifies (o : LedgerOutput) : Bool :=
  o.unwrapOutputResult.isOk && o.unwrapProofResult.isOk &&
    decide (o.derivedOutputIDResult = .ok o.outputID)

/-- A record that verifies unwraps successfully (for any spent record and
enrichment commitment ID). -/
theorem recordVerifies_unwrap_ok (o : LedgerOutput) (sp : Option LedgerSpent)
    (latest : CommitmentID) (h : recordVerifies o = true) :
    ∃ out : Output, unwrapOutput o sp latest = .ok out := by
  unfold recordVerifies at h
  cases hs : o.unwrapOutputResult with
  | error e => rw [hs] at h; simp [Except.isOk, Except.toBool] at h
  | ok output =>
    cases hp : o.unwrapProofResult with
    | error e => rw [hs, hp] at h; simp [Except.isOk, Except.toBool] at h
    | ok proof =>
      rw [hs, hp] at h
      simp [Except.isOk, Except.toBool] at h
      refine ⟨_, (unwrapOutput_ok_iff o sp latest _).2 ⟨output, proof, hs, hp, h, rfl⟩⟩

/-- A record that fails verification makes `unwrapOutput` fail. -/
theorem recordVerifies_unwrap_error (o : LedgerOutput) (sp : Option LedgerSpent)
    (latest : CommitmentID) (h : recordVerifies o = false) :
    ∃ e : UnwrapErr, unwrapOutput o sp latest = .error e := by
  unfold recordVerifies at h
  unfold unwrapOutput
  cases hs : o.unwrapOutputResult with
  | error e => exact ⟨.codec e, rfl⟩
  | ok output =>
    cases hp : o.unwrapProofResult with
    | error e => exact ⟨.codec e, rfl⟩
    | ok proof =>
      cases hd : o.derivedOutputIDResult with
      | error e => exact ⟨.codec e, rfl⟩
      | ok derived =>
        rw [hs, hp, hd] at h
        simp [Except.isOk, Except.toBool] at h
        refine ⟨.outputIDMismatch o.outputID derived, ?_⟩
        dsimp only
        rw [if_pos h]

/-- Modelled from the spec: the accumulator of §4.3's state machine — the
batch's commitment ID and the counts of consumed/created records actually
accumulated since the begin-marker. -/
structure OpenBatch where
  commitmentID : CommitmentID
  consumedCount : Nat
  createdCount : Nat
deriving DecidableEq, Repr

/-- Modelled from the spec (§4.3, §8, amended for the uint32 wire width of
the declared counts): a batch is delivered if and only if it is bounded by
exactly one begin-marker and one end-marker whose declared counts equal the
accumulated record counts (as uint32 values) and whose commitment ID equals
the batch's; a begin while open, a record or end while idle, a mismatching
end, or a record failing verification is an error and nothing further is
delivered.  Deliveries are abstract summaries (commitment ID, consumed
count, created count). -/
def reassembleSpec :
    Option OpenBatch → List LedgerOpPayload →
      List (CommitmentID × Nat × Nat) × Option ReassemblySpecErr
  | _, [] => ([], none)
  | ob, p :: rest =>
    match p with
    | .batchMarker m =>
      match m.markerType with
      | .BEGIN =>
        match ob with
        | some _ => ([], some .doubleBegin)
        | none => reassembleSpec (some ⟨m.commitmentID, 0, 0⟩) rest
      | .END =>
        match ob with
        | none => ([], some .strayOperation)
        | some b =>
          if uint32 b.consumedCount = uint32 m.consumedCount ∧
              uint32 b.createdCount = uint32 m.createdCount ∧
              b.commitmentID = m.commitmentID then
            let r := reassembleSpec none rest
            ((b.commitmentID, b.consumedCount, b.createdCount) :: r.1, r.2)
          else ([], some .countOrIDMismatch)
    | .consumed spent =>
      match ob with
      | none => ([], some .strayOperation)
      | some b =>
        if recordVerifies spent.output then
          reassembleSpec (some { b with consumedCount := b.consumedCount + 1 }) rest
        else ([], some .badRecord)
    | .created out =>
      match ob with
      | none => ([], some .strayOperation)
      | some b =>
        if recordVerifies out then
          reassembleSpec (some { b with createdCount := b.createdCount + 1 }) rest
        else ([], some .badRecord)

/-- The abstract summary of a delivered `LedgerUpdate`. -/
def batchSummary (u : LedgerUpdate) : CommitmentID × Nat × Nat :=
  (u.commitmentID, u.consumed.length, u.created.length)

/-- Abstraction of implementation errors to the spec's error classes.  A
consumer error has no spec counterpart (the refinement theorem runs with a
consumer that never fails, so that case is unreachable there). -/
def errAbs : LedgerErr → ReassemblySpecErr
  | .alreadyInProgress => .doubleBegin
  | .invalidOperation => .strayOperation
  | .endedAbruptly => .countOrIDMismatch
  | .unwrapFailed _ => .badRecord
  | .consumerError _ => .badRecord

/-- A registered consumer that never errors. -/
def okLedgerConsumer : LedgerUpdate → Option Nat := fun _ => none

/-- Correspondence between the implementation's loop state and the spec
state machine's accumulator. -/
inductive LedgerRel : LedgerStreamState → Option OpenBatch → Prop
  | idle (latest : CommitmentID) : LedgerRel ⟨none, latest⟩ none
  | running (latest : CommitmentID) (u : LedgerUpdate) (b : OpenBatch)
      (hc : b.commitmentID = u.commitmentID)
      (hn : b.consumedCount = u.consumed.length)
      (hk : b.createdCount = u.created.length) :
      LedgerRel ⟨some u, latest⟩ (some b)

/-- Simulation between `ListenToLedgerUpdates`'s consumer loop and the spec
state machine, from any pair of related states. -/
theorem runLedgerOps_refines (af : Nat → ApiToken) (steps : List LedgerStep) :
    ∀ (st : LedgerStreamState) (ob : Option OpenBatch), LedgerRel st ob →
      ((runLedgerOps af okLedgerConsumer st steps).1.map batchSummary,
        (runLedgerOps af okLedgerConsumer st steps).2.map errAbs)
        = reassembleSpec ob (steps.map LedgerStep.payload) := by
  induction steps with
  | nil => intro st ob _; rfl
  | cons s rest ih =>
    intro st ob hrel
    obtain ⟨p, cache⟩ := s
    cases hrel with
    | idle latest =>
      cases p with
      | batchMarker m =>
        obtain ⟨mt, mcid, mcc, mkc⟩ := m
        cases mt with
        | BEGIN =>
          have hrec := ih ⟨some ⟨af mcid.slot, mcid, [], []⟩, cache⟩
            (some ⟨mcid, 0, 0⟩) (LedgerRel.running cache _ _ rfl rfl rfl)
          simpa [runLedgerOps, processLedgerOp, reassembleSpec] using hrec
        | END =>
          simp [runLedgerOps, processLedgerOp, reassembleSpec, errAbs]
      | consumed spent =>
        simp [runLedgerOps, processLedgerOp, reassembleSpec, errAbs]
      | created out =>
        simp [runLedgerOps, processLedgerOp, reassembleSpec, errAbs]
    | running latest u b hc hn hk =>
      cases p with
      | batchMarker m =>
        obtain ⟨mt, mcid, mcc, mkc⟩ := m
        cases mt with
        | BEGIN =>
          simp [runLedgerOps, processLedgerOp, reassembleSpec, errAbs]
        | END =>
          by_cases hmatch : uint32 u.consumed.length = uint32 mcc ∧
              uint32 u.created.length = uint32 mkc ∧ u.commitmentID = mcid
          · have hcond : ¬(uint32 u.consumed.length ≠ uint32 mcc ∨
                uint32 u.created.length ≠ uint32 mkc ∨ u.commitmentID ≠ mcid) := by
              push_neg
              exact hmatch
            have hrec := ih ⟨none, latest⟩ none (LedgerRel.idle latest)
            simp only [runLedgerOps, processLedgerOp, if_neg hcond, okLedgerConsumer,
              reassembleSpec, List.map_cons, hn, hk, hc, if_pos hmatch]
            rw [Prod.ext_iff] at hrec
            simp [Option.toList, batchSummary, hrec.1, hrec.2]
            exact ⟨hrec.1, hrec.2⟩
          · have hcond : uint32 u.consumed.length ≠ uint32 mcc ∨
                uint32 u.created.length ≠ uint32 mkc ∨ u.commitmentID ≠ mcid := by
              by_contra hcon
              push_neg at hcon
              exact hmatch hcon
            have hspec : ¬(uint32 b.consumedCount = uint32 mcc ∧
                uint32 b.createdCount = uint32 mkc ∧ b.commitmentID = mcid) := by
              rw [hn, hk, hc]
              exact hmatch
            simp [runLedgerOps, processLedgerOp, reassembleSpec, errAbs,
              if_pos hcond, if_neg hspec]
      | consumed spent =>
        cases hv : recordVerifies spent.output with
        | true =>
          obtain ⟨out, ho⟩ :=
            recordVerifies_unwrap_ok spent.output (some spent) latest hv
          have hrec := ih ⟨some { u with consumed := u.consumed ++ [out] }, latest⟩
            (some { b with consumedCount := b.consumedCount + 1 })
            (LedgerRel.running latest _ _ hc (by simp [hn]) hk)
          simpa [runLedgerOps, processLedgerOp, reassembleSpec, ho, hv] using hrec
        | false =>
          obtain ⟨e, ho⟩ :=
            recordVerifies_unwrap_error spent.output (some spent) latest hv
          simp [runLedgerOps, processLedgerOp, reassembleSpec, errAbs, ho, hv]
      | created out =>
        cases hv : recordVerifies out with
        | true =>
          obtain ⟨o, ho⟩ := recordVerifies_unwrap_ok out none latest hv
          have hrec := ih ⟨some { u with created := u.created ++ [o] }, latest⟩
            (some { b with createdCount := b.createdCount + 1 })
            (LedgerRel.running latest _ _ hc hn (by simp [hk]))
          simpa [runLedgerOps, processLedgerOp, reassembleSpec, ho, hv] using hrec
        | false =>
          obtain ⟨e, ho⟩ := recordVerifies_unwrap_error out none latest hv
          simp [runLedgerOps, processLedgerOp, reassembleSpec, errAbs, ho, hv]

/-- C1 (amended): a batch is handed to the consumer if and only if it is
bounded by exactly one begin-marker and one end-marker whose declared
consumed/created counts equal the accumulated record counts as uint32
values (i.e. modulo 2^32 — the implementation compares
`uint32(len(...))` with the uint32 wire fields) and whose commitment ID
equals the batch's commitment ID; any other sequence (begin-marker while a
batch is open, consumed/created record or end-marker while no batch is
open, an end-marker with mismatched counts-mod-2^32 or commitment ID, or a
record failing its identity-proof verification) yields an error and no
delivery of that batch.  Stated as: the consumer loop of
`ListenToLedgerUpdates`, run with a never-failing consumer, delivers and
errs exactly as the spec state machine `reassembleSpec` prescribes. -/
theorem ledger_delivery_iff_reassembleSpec (af : Nat → ApiToken)
    (steps : List LedgerStep) :
    ((runLedgerOps af okLedgerConsumer initLedgerStreamState steps).1.map batchSummary,
      (runLedgerOps af okLedgerConsumer initLedgerStreamState steps).2.map errAbs)
      = reassembleSpec none (steps.map LedgerStep.payload) :=
  runLedgerOps_refines af steps initLedgerStreamState none
    (LedgerRel.idle emptyCommitmentID)

/-- Processing `k` copies of a consumed record that unwraps successfully
appends `k` copies of the unwrapped output to the open batch. -/
theorem runLedgerOps_replicate_consumed (af : Nat → ApiToken)
    (consumer : LedgerUpdate → Option Nat) (spent : LedgerSpent) (out : Output)
    (cache latest : CommitmentID)
    (ho : unwrapOutput spent.output (some spent) latest = .ok out) :
    ∀ (k : Nat) (u : LedgerUpdate) (rest : List LedgerStep),
      runLedgerOps af consumer ⟨some u, latest⟩
          (List.replicate k ⟨.consumed spent, cache⟩ ++ rest)
        = runLedgerOps af consumer
            ⟨some { u with consumed := u.consumed ++ List.replicate k out }, latest⟩ rest := by
  intro k
  induction k with
  | zero => intro u rest; simp
  | succ k ih =>
    intro u rest
    rw [List.replicate_succ, List.cons_append]
    have hstep : runLedgerOps af consumer ⟨some u, latest⟩
        (⟨.consumed spent, cache⟩ ::
          (List.replicate k ⟨.consumed spent, cache⟩ ++ rest))
        = runLedgerOps af consumer
            ⟨some { u with consumed := u.consumed ++ [out] }, latest⟩
            (List.replicate k ⟨.consumed spent, cache⟩ ++ rest) := by
      simp [runLedgerOps, processLedgerOp, ho]
    rw [hstep, ih { u with consumed := u.consumed ++ [out] } rest]
    have harr : u.consumed ++ [out] ++ List.replicate k out
        = u.consumed ++ List.replicate (k + 1) out := by
      rw [List.append_assoc, List.singleton_append, ← List.replicate_succ]
    rw [harr]

/-- A ledger output record whose codec results all succeed and whose derived
ID matches its claimed ID. -/
def demoLedgerOutput : LedgerOutput :=
  { outputID := ⟨1, 0, 3⟩, blockID := 2, slotBooked := 3
    commitmentIDIncluded := none, rawData := 9
    unwrapOutputResult := .ok ⟨7⟩
    unwrapProofResult := .ok ⟨8⟩
    derivedOutputIDResult := .ok ⟨1, 0, 3⟩ }

/-- A spent record wrapping `demoLedgerOutput`. -/
def demoSpent : LedgerSpent :=
  { output := demoLedgerOutput, commitmentIDSpent := none
    transactionIDSpent := 4, slotSpent := 6 }

/-- A stream carrying one batch of `2^32` consumed records bounded by
markers that declare zero consumed and zero created records. -/
def hugeBatchSteps : List LedgerStep :=
  ⟨.batchMarker ⟨.BEGIN, ⟨5, 1⟩, 0, 0⟩, ⟨9, 9⟩⟩ ::
    (List.replicate 4294967296 ⟨.consumed demoSpent, ⟨9, 9⟩⟩ ++
      [⟨.batchMarker ⟨.END, ⟨5, 1⟩, 0, 0⟩, ⟨9, 9⟩⟩])

/-- Every output (consumed and created) of a ledger update carries the given
commitment ID in its metadata's `LatestCommitmentID` field. -/
def AllStamped (u : LedgerUpdate) (c : CommitmentID) : Prop :=
  ∀ o ∈ u.consumed ++ u.created, o.metadata.latestCommitmentID = c

/-- Loop invariant: the open batch (if any) is entirely stamped with the
`latestCommitmentID` captured at its begin-marker. -/
def StampOk (st : LedgerStreamState) : Prop :=
  ∀ u : LedgerUpdate, st.update = some u → AllStamped u st.latestCommitmentID

/-- Workhorse for the batch-stamping property: from any invariant-respecting
state, every delivered update is either the completion of the batch already
open at the start (stamped with the state's captured commitment ID) or the
completion of a batch begun at some step of the stream (stamped with the
cache value of that begin step). -/
theorem runLedgerOps_stamped (af : Nat → ApiToken)
    (consumer : LedgerUpdate → Option Nat) :
    ∀ (steps : List LedgerStep) (st : LedgerStreamState), StampOk st →
      ∀ u ∈ (runLedgerOps af consumer st steps).1,
        (∃ u₀ : LedgerUpdate, st.update = some u₀ ∧
          u.commitmentID = u₀.commitmentID ∧ AllStamped u st.latestCommitmentID) ∨
        (∃ j : LedgerStep, j ∈ steps ∧
          (∃ mcc mkc : Nat,
            j.payload = .batchMarker ⟨.BEGIN, u.commitmentID, mcc, mkc⟩) ∧
          AllStamped u j.cacheLatest) := by
  intro steps
  induction steps with
  | nil =>
    intro st _ u hu
    simp [runLedgerOps] at hu
  | cons s rest ih =>
    intro st hstamp u hu
    obtain ⟨p, cache⟩ := s
    cases p with
    | batchMarker m =>
      obtain ⟨mt, mcid, mcc, mkc⟩ := m
      cases mt with
      | BEGIN =>
        cases hsu : st.update with
        | some u₀ =>
          rw [show runLedgerOps af consumer st
                (⟨.batchMarker ⟨.BEGIN, mcid, mcc, mkc⟩, cache⟩ :: rest)
              = ([], some .alreadyInProgress) by
            simp [runLedgerOps, processLedgerOp, hsu]] at hu
          simp at hu
        | none =>
          have hstep : runLedgerOps af consumer st
              (⟨.batchMarker ⟨.BEGIN, mcid, mcc, mkc⟩, cache⟩ :: rest)
              = runLedgerOps af consumer
                  ⟨some ⟨af mcid.slot, mcid, [], []⟩, cache⟩ rest := by
            simp [runLedgerOps, processLedgerOp, hsu]
          rw [hstep] at hu
          have hstamp' : StampOk ⟨some ⟨af mcid.slot, mcid, [], []⟩, cache⟩ := by
            intro v hv
            injection hv with hv
            subst hv
            intro o ho
            simp at ho
          rcases ih _ hstamp' u hu with ⟨u₀, hu₀, hcid, hall⟩ | ⟨j, hj, hbegin, hall⟩
          · injection hu₀ with hu₀
            subst hu₀
            right
            exact ⟨⟨.batchMarker ⟨.BEGIN, mcid, mcc, mkc⟩, cache⟩,
              List.mem_cons_self _ _, ⟨mcc, mkc, by rw [hcid]⟩, hall⟩
          · exact .inr ⟨j, List.mem_cons_of_mem _ hj, hbegin, hall⟩
      | END =>
        cases hsu : st.update with
        | none =>
          rw [show runLedgerOps af consumer st
                (⟨.batchMarker ⟨.END, mcid, mcc, mkc⟩, cache⟩ :: rest)
              = ([], some .invalidOperation) by
            simp [runLedgerOps, processLedgerOp, hsu]] at hu
          simp at hu
        | some u₀ =>
          by_cases hcheck : uint32 u₀.consumed.length ≠ uint32 mcc ∨
              uint32 u₀.created.length ≠ uint32 mkc ∨ u₀.commitmentID ≠ mcid
          · rw [show runLedgerOps af consumer st
                  (⟨.batchMarker ⟨.END, mcid, mcc, mkc⟩, cache⟩ :: rest)
                = ([], some .endedAbruptly) by
              simp only [runLedgerOps, processLedgerOp, hsu, if_pos hcheck]
              rfl] at hu
            simp at hu
          · cases hcons : consumer u₀ with
            | some e =>
              rw [show runLedgerOps af consumer st
                    (⟨.batchMarker ⟨.END, mcid, mcc, mkc⟩, cache⟩ :: rest)
                  = ([u₀], some (.consumerError e)) by
                simp only [runLedgerOps, processLedgerOp, hsu, if_neg hcheck, hcons]
                rfl] at hu
              have hu' : u = u₀ := by simpa using hu
              refine .inl ⟨u₀, rfl, ?_, ?_⟩
              · rw [hu']
              · rw [hu']; exact hstamp u₀ hsu
            | none =>
              have hstep : runLedgerOps af consumer st
                  (⟨.batchMarker ⟨.END, mcid, mcc, mkc⟩, cache⟩ :: rest)
                  = (u₀ :: (runLedgerOps af consumer
                      ⟨none, st.latestCommitmentID⟩ rest).1,
                     (runLedgerOps af consumer
                      ⟨none, st.latestCommitmentID⟩ rest).2) := by
                simp only [runLedgerOps, processLedgerOp, hsu, if_neg hcheck, hcons]
                rfl
              rw [hstep] at hu
              rcases List.mem_cons.1 hu with hu | hu
              · refine .inl ⟨u₀, rfl, ?_, ?_⟩
                · rw [hu]
                · rw [hu]; exact hstamp u₀ hsu
              · have hstamp' : StampOk ⟨none, st.latestCommitmentID⟩ := by
                  intro v hv; cases hv
                rcases ih _ hstamp' u hu with ⟨u₁, hu₁, -, -⟩ | ⟨j, hj, hbegin, hall⟩
                · cases hu₁
                · exact .inr ⟨j, List.mem_cons_of_mem _ hj, hbegin, hall⟩
    | consumed spent =>
      cases hsu : st.update with
      | none =>
        rw [show runLedgerOps af consumer st (⟨.consumed spent, cache⟩ :: rest)
            = ([], some .invalidOperation) by
          simp [runLedgerOps, processLedgerOp, hsu]] at hu
        simp at hu
      | some u₀ =>
        cases ho : unwrapOutput spent.output (some spent) st.latestCommitmentID with
        | error e =>
          rw [show runLedgerOps af consumer st (⟨.consumed spent, cache⟩ :: rest)
              = ([], some (.unwrapFailed e)) by
            simp [runLedgerOps, processLedgerOp, hsu, ho]] at hu
          simp at hu
        | ok out =>
          have hstep : runLedgerOps af consumer st (⟨.consumed spent, cache⟩ :: rest)
              = runLedgerOps af consumer
                  ⟨some { u₀ with consumed := u₀.consumed ++ [out] },
                    st.latestCommitmentID⟩ rest := by
            simp [runLedgerOps, processLedgerOp, hsu, ho]
          rw [hstep] at hu
          have hstamp' : StampOk
              ⟨some { u₀ with consumed := u₀.consumed ++ [out] },
                st.latestCommitmentID⟩ := by
            intro v hv
            injection hv with hv
            subst hv
            intro o hmem
            rcases List.mem_append.1 hmem with hmem | hmem
            · rcases List.mem_append.1 hmem with hmem | hmem
              · exact hstamp u₀ hsu o (List.mem_append.2 (.inl hmem))
              · rw [List.mem_singleton.1 hmem]
                exact unwrapOutput_latest _ _ _ _ ho
            · exact hstamp u₀ hsu o (List.mem_append.2 (.inr hmem))
          rcases ih _ hstamp' u hu with ⟨u₁, hu₁, hcid, hall⟩ | ⟨j, hj, hbegin, hall⟩
          · injection hu₁ with hu₁
            subst hu₁
            exact .inl ⟨u₀, rfl, hcid, hall⟩
          · exact .inr ⟨j, List.mem_cons_of_mem _ hj, hbegin, hall⟩
    | created out₀ =>
      cases hsu : st.update with
      | none =>
        rw [show runLedgerOps af consumer st (⟨.created out₀, cache⟩ :: rest)
            = ([], some .invalidOperation) by
          simp [runLedgerOps, processLedgerOp, hsu]] at hu
        simp at hu
      | some u₀ =>
        cases ho : unwrapOutput out₀ none st.latestCommitmentID with
        | error e =>
          rw [show runLedgerOps af consumer st (⟨.created out₀, cache⟩ :: rest)
              = ([], some (.unwrapFailed e)) by
            simp [runLedgerOps, processLedgerOp, hsu, ho]] at hu
          simp at hu
        | ok out =>
          have hstep : runLedgerOps af consumer st (⟨.created out₀, cache⟩ :: rest)
              = runLedgerOps af consumer
                  ⟨some { u₀ with created := u₀.created ++ [out] },
                    st.latestCommitmentID⟩ rest := by
            simp [runLedgerOps, processLedgerOp, hsu, ho]
          rw [hstep] at hu
          have hstamp' : StampOk
              ⟨some { u₀ with created := u₀.created ++ [out] },
                st.latestCommitmentID⟩ := by
            intro v hv
            injection hv with hv
            subst hv
            intro o hmem
            rcases List.mem_append.1 hmem with hmem | hmem
            · exact hstamp u₀ hsu o (List.mem_append.2 (.inl hmem))
            · rcases List.mem_append.1 hmem with hmem | hmem
              · exact hstamp u₀ hsu o (List.mem_append.2 (.inr hmem))
              · rw [List.mem_singleton.1 hmem]
                exact unwrapOutput_latest _ _ _ _ ho
          rcases ih _ hstamp' u hu with ⟨u₁, hu₁, hcid, hall⟩ | ⟨j, hj, hbegin, hall⟩
          · injection hu₁ with hu₁
            subst hu₁
            exact .inl ⟨u₀, rfl, hcid, hall⟩
          · exact .inr ⟨j, List.mem_cons_of_mem _ hj, hbegin, hall⟩

/-- C10: within a single delivered ledger-update batch, every `Output`
(consumed and created) carries the same `LatestCommitmentID` in its
metadata: the status cache's latest commitment ID as it was at the step
whose begin-marker opened this batch — even though every step of the stream
carries its own (possibly advanced) cache value. -/
theorem ledger_enrichment_latest_at_batch_start (af : Nat → ApiToken)
    (consumer : LedgerUpdate → Option Nat) (steps : List LedgerStep)
    (u : LedgerUpdate)
    (hu : u ∈ (runLedgerOps af consumer initLedgerStreamState steps).1) :
    ∃ j : LedgerStep, j ∈ steps ∧
      (∃ mcc mkc : Nat,
        j.payload = .batchMarker ⟨.BEGIN, u.commitmentID, mcc, mkc⟩) ∧
      AllStamped u j.cacheLatest := by
  rcases runLedgerOps_stamped af consumer steps initLedgerStreamState
      (by intro v hv; cases hv) u hu with ⟨u₀, hu₀, -, -⟩ | h
  · cases hu₀
  · exact h

/-- A clean one-batch stream in which the cache's latest commitment ID
advances at every step after the begin-marker. -/
def demoBatchSteps : List LedgerStep :=
  [⟨.batchMarker ⟨.BEGIN, ⟨5, 1⟩, 1, 1⟩, ⟨7, 7⟩⟩,
   ⟨.consumed demoSpent, ⟨8, 8⟩⟩,
   ⟨.created demoLedgerOutput, ⟨9, 9⟩⟩,
   ⟨.batchMarker ⟨.END, ⟨5, 1⟩, 1, 1⟩, ⟨10, 10⟩⟩]

/-- The single update `demoBatchSteps` delivers. -/
def demoDelivered : LedgerUpdate :=
  ((runLedgerOps (fun _ => 0) okLedgerConsumer initLedgerStreamState
      demoBatchSteps).1).headD ⟨0, emptyCommitmentID, [], []⟩

/-- Witness for `ledger_enrichment_latest_at_batch_start` on the concrete
one-batch stream. -/
theorem ledger_enrichment_latest_at_batch_start_witness :
    demoDelivered ∈ (runLedgerOps (fun _ => 0) okLedgerConsumer
        initLedgerStreamState demoBatchSteps).1 ∧
      ∃ j : LedgerStep, j ∈ demoBatchSteps ∧
        (∃ mcc mkc : Nat,
          j.payload = .batchMarker ⟨.BEGIN, demoDelivered.commitmentID, mcc, mkc⟩) ∧
        AllStamped demoDelivered j.cacheLatest :=
  ⟨by decide, ledger_enrichment_latest_at_batch_start (fun _ => 0) okLedgerConsumer
    demoBatchSteps demoDelivered (by decide)⟩

/-- One loop step that does not abort: the run is the step's delivery
followed by the run from the successor state. -/
theorem runLedgerOps_cons_ok (af : Nat → ApiToken)
    (consumer : LedgerUpdate → Option Nat) (s : LedgerStep)
    (rest : List LedgerStep) (st st' : LedgerStreamState)
    (d : Option LedgerUpdate)
    (h : processLedgerOp af consumer s.cacheLatest st s.payload = (st', d, none)) :
    runLedgerOps af consumer st (s :: rest)
      = (d.toList ++ (runLedgerOps af consumer st' rest).1,
          (runLedgerOps af consumer st' rest).2) := by
  simp only [runLedgerOps, h]

/-- The unwrapped form of `demoSpent`'s output, enriched with commitment
`⟨9, 9⟩`. -/
def demoUnwrapped : Output :=
  { outputID := ⟨1, 0, 3⟩, output := ⟨7⟩, outputIDProof := ⟨8⟩
    metadata := unwrapMetadata demoLedgerOutput (some demoSpent) ⟨9, 9⟩
    slotBooked := 3, slotSpent := 6, rawOutputData := 9 }

/-- An end-marker whose declared counts match the open batch modulo the
uint32 conversion (and whose commitment ID matches) delivers the batch and
closes it. -/
theorem processLedgerOp_end_delivers (af : Nat → ApiToken)
    (consumer : LedgerUpdate → Option Nat) (cache : CommitmentID)
    (st : LedgerStreamState) (u : LedgerUpdate) (m : BatchMarker)
    (hu : st.update = some u) (hmt : m.markerType = .END)
    (hc : uint32 u.consumed.length = uint32 m.consumedCount)
    (hk : uint32 u.created.length = uint32 m.createdCount)
    (hid : u.commitmentID = m.commitmentID)
    (hcons : consumer u = none) :
    processLedgerOp af consumer cache st (.batchMarker m)
      = ({ st with update := none }, some u, none) := by
  obtain ⟨mt, mcid, mcc, mkc⟩ := m
  cases hmt
  unfold processLedgerOp
  dsimp only at hc hk hid ⊢
  rw [hu]
  dsimp only
  rw [if_neg (by push_neg; exact ⟨hc, hk, hid⟩)]
  rw [hcons]

/-- C1 counterexample: Go's `uint32(len(update.Consumed))` truncates, so a
batch of `2^32` accumulated consumed records is handed to the consumer with
no error even though the end-marker declares `0` consumed records — the
declared count does not equal the count of records actually accumulated. -/
theorem ledger_truncation_delivers :
    (runLedgerOps (fun _ => 0) okLedgerConsumer initLedgerStreamState hugeBatchSteps).2
        = none ∧
      (runLedgerOps (fun _ => 0) okLedgerConsumer initLedgerStreamState
            hugeBatchSteps).1.map (fun u => u.consumed.length) = [4294967296] ∧
      (4294967296 : Nat) ≠ 0 := by
  have ho : unwrapOutput demoSpent.output (some demoSpent) ⟨9, 9⟩
      = .ok demoUnwrapped := by
    rfl
  have hbegin := runLedgerOps_cons_ok (fun _ => 0) okLedgerConsumer
    ⟨.batchMarker ⟨.BEGIN, ⟨5, 1⟩, 0, 0⟩, ⟨9, 9⟩⟩
    (List.replicate 4294967296 ⟨.consumed demoSpent, ⟨9, 9⟩⟩ ++
      [⟨.batchMarker ⟨.END, ⟨5, 1⟩, 0, 0⟩, ⟨9, 9⟩⟩])
    initLedgerStreamState ⟨some ⟨0, ⟨5, 1⟩, [], []⟩, ⟨9, 9⟩⟩ none rfl
  have hmid := runLedgerOps_replicate_consumed (fun _ => 0) okLedgerConsumer
    demoSpent demoUnwrapped ⟨9, 9⟩ ⟨9, 9⟩ ho 4294967296 ⟨0, ⟨5, 1⟩, [], []⟩
    [⟨.batchMarker ⟨.END, ⟨5, 1⟩, 0, 0⟩, ⟨9, 9⟩⟩]
  have hclen : uint32 ([] ++ List.replicate 4294967296 demoUnwrapped
      : List Output).length = uint32 0 := by
    rw [List.nil_append, List.length_replicate]
    decide
  have hendproc : processLedgerOp (fun _ => 0) okLedgerConsumer ⟨9, 9⟩
      ⟨some ⟨0, ⟨5, 1⟩, [] ++ List.replicate 4294967296 demoUnwrapped, []⟩, ⟨9, 9⟩⟩
      (.batchMarker ⟨.END, ⟨5, 1⟩, 0, 0⟩)
      = (⟨none, ⟨9, 9⟩⟩,
          some ⟨0, ⟨5, 1⟩, [] ++ List.replicate 4294967296 demoUnwrapped, []⟩, none) :=
    processLedgerOp_end_delivers (fun _ => 0) okLedgerConsumer ⟨9, 9⟩
      ⟨some ⟨0, ⟨5, 1⟩, [] ++ List.replicate 4294967296 demoUnwrapped, []⟩, ⟨9, 9⟩⟩
      ⟨0, ⟨5, 1⟩, [] ++ List.replicate 4294967296 demoUnwrapped, []⟩
      ⟨.END, ⟨5, 1⟩, 0, 0⟩ rfl rfl hclen rfl rfl rfl
  have hend := runLedgerOps_cons_ok (fun _ => 0) okLedgerConsumer
    ⟨.batchMarker ⟨.END, ⟨5, 1⟩, 0, 0⟩, ⟨9, 9⟩⟩ []
    ⟨some ⟨0, ⟨5, 1⟩, [] ++ List.replicate 4294967296 demoUnwrapped, []⟩, ⟨9, 9⟩⟩
    ⟨none, ⟨9, 9⟩⟩
    (some ⟨0, ⟨5, 1⟩, [] ++ List.replicate 4294967296 demoUnwrapped, []⟩) hendproc
  have hrun :
      runLedgerOps (fun _ => 0) okLedgerConsumer initLedgerStreamState hugeBatchSteps
        = ([⟨0, ⟨5, 1⟩, [] ++ List.replicate 4294967296 demoUnwrapped, []⟩], none) := by
    rw [show hugeBatchSteps
        = ⟨.batchMarker ⟨.BEGIN, ⟨5, 1⟩, 0, 0⟩, ⟨9, 9⟩⟩ ::
            (List.replicate 4294967296 ⟨.consumed demoSpent, ⟨9, 9⟩⟩ ++
              [⟨.batchMarker ⟨.END, ⟨5, 1⟩, 0, 0⟩, ⟨9, 9⟩⟩]) from rfl]
    rw [hbegin, hmid, hend]
    rfl
  rw [hrun]
  refine ⟨rfl, ?_, by decide⟩
  show [([] ++ List.replicate 4294967296 demoUnwrapped : List Output).length]
      = [4294967296]
  rw [List.nil_append, List.length_replicate]

/-! ## Synchronized status cache (`node_status.go`, v4 revision with
separate cached commitments) -/

/-- The decoded `iotago.Commitment` payload, abstract apart from its slot. -/
structure DecodedCommitment where
  slot : Nat
  value : Nat
deriving DecidableEq, Repr

/-- The raw commitment bytes inside an `inx.Commitment`
(`GetCommitment()`), carrying the external codec's decode result
(`UnwrapCommitment(api)`). -/
structure RawCommitmentData where
  data : Nat
  unwrapResult : Except CodecErr DecodedCommitment
deriving DecidableEq, Repr

/-- `inx.Commitment` wire record: the commitment ID
(`GetCommitmentId().Unwrap()`, zero-valued when absent on the wire) and the
optional raw commitment. -/
structure INXCommitment where
  commitmentID : CommitmentID
  commitment : Option RawCommitmentData
deriving DecidableEq, Repr

/-- `nodebridge.Commitment` (commitments.go): ID plus decoded payload. -/
structure Commitment where
  commitmentID : CommitmentID
  commitment : DecodedCommitment
deriving DecidableEq, Repr

/-- `commitmentFromINXCommitment` (commitments.go): `nil, nil` when the
record or its raw commitment is absent, else the decode result paired with
the unwrapped commitment ID. -/
def commitmentFromINXCommitment :
    Option INXCommitment → Except CodecErr (Option Commitment)
  | none => .ok none
  | some ic =>
    match ic.commitment with
    | none => .ok none
    | some raw =>
      match raw.unwrapResult with
      | .error e => .error e
      | .ok dec => .ok (some ⟨ic.commitmentID, dec⟩)

/-- `inx.NodeStatus` wire record (the fields the v4 status path reads). -/
structure NodeStatusMsg where
  isHealthy : Bool
  latestCommitment : Option INXCommitment
  latestFinalizedCommitment : Option INXCommitment
  pruningEpoch : Nat
deriving DecidableEq, Repr

/-- `GetLatestCommitment().GetCommitmentId().Unwrap().Slot()` with Go's
nil-safe getter chain (absent fields give the zero commitment ID). -/
def NodeStatusMsg.latestSlot (m : NodeStatusMsg) : Nat :=
  match m.latestCommitment with
  | some c => c.commitmentID.slot
  | none => 0

/-- `GetLatestFinalizedCommitment().GetCommitmentId().Unwrap().Slot()`. -/
def NodeStatusMsg.latestFinalizedSlot (m : NodeStatusMsg) : Nat :=
  match m.latestFinalizedCommitment with
  | some c => c.commitmentID.slot
  | none => 0

/-- The `nodeBridge` fields guarded by `nodeStatusMutex`. -/
structure NodeBridgeStatus where
  nodeStatus : Option NodeStatusMsg
  latestCommitment : Option Commitment
  latestFinalizedCommitment : Option Commitment
deriving DecidableEq, Repr

/-- Zero-valued bridge state before the first status arrives. -/
def initNodeBridgeStatus : NodeBridgeStatus := ⟨none, none, none⟩

/-- The typed events the status path can trigger
(`LatestCommitmentChanged`, `LatestFinalizedCommitmentChanged`). -/
inductive StatusEvent
  | latestCommitmentChanged (c : Option Commitment)
  | latestFinalizedCommitmentChanged (c : Option Commitment)
deriving DecidableEq, Repr

/-- `n.nodeStatus.GetLatestCommitment()...Slot()` on the previous snapshot
(zero when no snapshot is stored yet). -/
def statusLatestSlot (st : NodeBridgeStatus) : Nat :=
  match st.nodeStatus with
  | some prev => prev.latestSlot
  | none => 0

/-- Previous snapshot's latest-finalized slot (zero when absent). -/
def statusLatestFinalizedSlot (st : NodeBridgeStatus) : Nat :=
  match st.nodeStatus with
  | some prev => prev.latestFinalizedSlot
  | none => 0

/-- `NodeBridge.processNodeStatus` (node_status.go, v4 revision): for each of
the two commitment fields, when no previous snapshot exists or the incoming
commitment's slot exceeds the previous snapshot's corresponding slot, decode
and (on decode success) replace the cached commitment and flag the change;
then unconditionally replace the raw snapshot; finally fire one event per
flagged field.  (The provider's `SetCommittedSlot` side effect is external
and not modelled.) -/
def processNodeStatus (st : NodeBridgeStatus) (nodeStatus : NodeStatusMsg) :
    NodeBridgeStatus × List StatusEvent :=
  let r₁ : Option Commitment × Bool × NodeBridgeStatus :=
    if st.nodeStatus.isNone ∨ nodeStatus.latestSlot > statusLatestSlot st then
      match commitmentFromINXCommitment nodeStatus.latestCommitment with
      | .ok c => (c, true, { st with latestCommitment := c })
      | .error _ => (none, false, st)
    else (none, false, st)
  let r₂ : Option Commitment × Bool × NodeBridgeStatus :=
    if st.nodeStatus.isNone ∨
        nodeStatus.latestFinalizedSlot > statusLatestFinalizedSlot st then
      match commitmentFromINXCommitment nodeStatus.latestFinalizedCommitment with
      | .ok c => (c, true, { r₁.2.2 with latestFinalizedCommitment := c })
      | .error _ => (none, false, r₁.2.2)
    else (none, false, r₁.2.2)
  let st₃ := { r₂.2.2 with nodeStatus := some nodeStatus }
  (st₃,
    (if r₁.2.1 then
      [StatusEvent.latestCommitmentChanged r₁.1] else []) ++
    (if r₂.2.1 then
      [StatusEvent.latestFinalizedCommitmentChanged r₂.1] else []))

/-- A wire commitment at slot `s` whose payload decodes successfully. -/
def inxCommitmentAt (s : Nat) : INXCommitment := ⟨⟨s, 0⟩, some ⟨0, .ok ⟨s, 0⟩⟩⟩

/-- A status snapshot whose latest commitment sits at slot `s` (and carries
no finalized commitment). -/
def statusMsgAt (s : Nat) : NodeStatusMsg := ⟨true, some (inxCommitmentAt s), none, 0⟩

/-- C2 counterexample: the guard compares the incoming commitment's slot
against the previously stored raw snapshot — which is replaced even by stale
snapshots — not against the cached commitment.  Feeding slots 100, 50, 80:
after 100 and 50 the cache still holds slot 100, yet the slot-80 snapshot
(80 ≤ 100) replaces the cached commitment with slot 80 and fires a change
event, so the cached field regresses. -/
theorem nodeStatus_cached_commitment_regresses :
    ((processNodeStatus (processNodeStatus initNodeBridgeStatus
          (statusMsgAt 100)).1 (statusMsgAt 50)).1.latestCommitment.map
        (fun c => c.commitmentID.slot) = some 100) ∧
      (statusMsgAt 80).latestSlot ≤ 100 ∧
      ((processNodeStatus (processNodeStatus (processNodeStatus initNodeBridgeStatus
            (statusMsgAt 100)).1 (statusMsgAt 50)).1
          (statusMsgAt 80)).1.latestCommitment.map
        (fun c => c.commitmentID.slot) = some 80) ∧
      (processNodeStatus (processNodeStatus (processNodeStatus initNodeBridgeStatus
            (statusMsgAt 100)).1 (statusMsgAt 50)).1 (statusMsgAt 80)).2
        = [StatusEvent.latestCommitmentChanged (some ⟨⟨80, 0⟩, ⟨80, 0⟩⟩)] := by
  decide

/-- C2 (amended): once a snapshot is stored, a commitment field of the cache
is left unchanged — and no change event fires for it — whenever the incoming
snapshot's corresponding commitment slot does not exceed the slot recorded
in the **previously stored raw snapshot** (the guard compares against the
previous snapshot, which is itself replaced unconditionally, not against the
cached commitment; regression of the cached value therefore remains
possible, as the counterexample shows). -/
theorem processNodeStatus_stale_ignored (st : NodeBridgeStatus)
    (prev msg : NodeStatusMsg) (h : st.nodeStatus = some prev) :
    (msg.latestSlot ≤ prev.latestSlot →
      (processNodeStatus st msg).1.latestCommitment = st.latestCommitment ∧
      ∀ c : Option Commitment,
        StatusEvent.latestCommitmentChanged c ∉ (processNodeStatus st msg).2) ∧
    (msg.latestFinalizedSlot ≤ prev.latestFinalizedSlot →
      (processNodeStatus st msg).1.latestFinalizedCommitment
          = st.latestFinalizedCommitment ∧
      ∀ c : Option Commitment,
        StatusEvent.latestFinalizedCommitmentChanged c
          ∉ (processNodeStatus st msg).2) := by
  have hnone : st.nodeStatus.isNone = false := by rw [h]; rfl
  constructor
  · intro hle
    have hguard : ¬(st.nodeStatus.isNone = true ∨ msg.latestSlot > statusLatestSlot st) := by
      rw [hnone]
      simp [statusLatestSlot, h]
      exact hle
    constructor
    · show (processNodeStatus st msg).1.latestCommitment = st.latestCommitment
      simp only [processNodeStatus]
      rw [if_neg hguard]
      by_cases hg2 : (st.nodeStatus.isNone = true ∨
          msg.latestFinalizedSlot > statusLatestFinalizedSlot st)
      · rw [if_pos hg2]
        cases hdec : commitmentFromINXCommitment msg.latestFinalizedCommitment <;> rfl
      · rw [if_neg hg2]
    · intro c
      show StatusEvent.latestCommitmentChanged c ∉ (processNodeStatus st msg).2
      simp only [processNodeStatus]
      rw [if_neg hguard]
      by_cases hg2 : (st.nodeStatus.isNone = true ∨
          msg.latestFinalizedSlot > statusLatestFinalizedSlot st)
      · rw [if_pos hg2]
        cases hdec : commitmentFromINXCommitment msg.latestFinalizedCommitment <;> simp
      · rw [if_neg hg2]
        simp
  · intro hle
    have hguard : ¬(st.nodeStatus.isNone = true ∨
        msg.latestFinalizedSlot > statusLatestFinalizedSlot st) := by
      rw [hnone]
      simp [statusLatestFinalizedSlot, h]
      exact hle
    constructor
    · show (processNodeStatus st msg).1.latestFinalizedCommitment
          = st.latestFinalizedCommitment
      simp only [processNodeStatus]
      rw [if_neg hguard]
      by_cases hg1 : (st.nodeStatus.isNone = true ∨ msg.latestSlot > statusLatestSlot st)
      · rw [if_pos hg1]
        cases hdec : commitmentFromINXCommitment msg.latestCommitment <;> rfl
      · rw [if_neg hg1]
    · intro c
      show StatusEvent.latestFinalizedCommitmentChanged c ∉ (processNodeStatus st msg).2
      simp only [processNodeStatus]
      rw [if_neg hguard]
      by_cases hg1 : (st.nodeStatus.isNone = true ∨ msg.latestSlot > statusLatestSlot st)
      · rw [if_pos hg1]
        cases hdec : commitmentFromINXCommitment msg.latestCommitment <;> simp
      · rw [if_neg hg1]
        simp

/-- The cache state after processing the slot-100 snapshot. -/
def demoStatusAfter100 : NodeBridgeStatus :=
  (processNodeStatus initNodeBridgeStatus (statusMsgAt 100)).1

/-- Witness for `processNodeStatus_stale_ignored`: applying the slot-50
snapshot on top of the stored slot-100 snapshot leaves the cached latest
commitment unchanged and fires no latest-commitment event. -/
theorem processNodeStatus_stale_ignored_witness :
    (statusMsgAt 50).latestSlot ≤ (statusMsgAt 100).latestSlot ∧
      ((processNodeStatus demoStatusAfter100 (statusMsgAt 50)).1.latestCommitment
          = demoStatusAfter100.latestCommitment ∧
        ∀ c : Option Commitment,
          StatusEvent.latestCommitmentChanged c
            ∉ (processNodeStatus demoStatusAfter100 (statusMsgAt 50)).2) :=
  ⟨by decide,
    (processNodeStatus_stale_ignored demoStatusAfter100 (statusMsgAt 100)
      (statusMsgAt 50) (by decide)).1 (by decide)⟩

/-! ## Generic stream pump (`node_bridge.go`, `ListenToStream`) -/

/-- Outcome of one `receiverFunc()` call: an item, orderly end-of-stream
(`io.EOF`), gRPC cancellation (`codes.Canceled`), or any other receive
error. -/
inductive RecvResult (K : Type)
  | item (k : K)
  | eof
  | canceled
  | recvError (code : Nat)
deriving DecidableEq, Repr

/-- Errors `ListenToStream` can return: a non-EOF/non-cancel receive error,
or the error returned by the consumer. -/
inductive StreamErr (E : Type)
  | recvError (code : Nat)
  | consumerError (e : E)
deriving DecidableEq, Repr

/-- `ListenToStream` (node_bridge.go): the blocking `receiverFunc` is
embedded as the list of outcomes of its successive calls, and `ctxErr i`
tells whether `ctx.Err() != nil` at the check following the `i`-th receive
(0-based).  The loop receives, classifies the receive error (EOF or
cancellation break the loop with success, anything else is returned as an
error), then checks the context, then dispatches to the consumer, whose
error is returned immediately.  The first component of the result counts the
receives performed; an exhausted outcome list marks the end of the modelled
window (the real call would block there) and is reported as success. -/
def ListenToStream {K E : Type} (ctxErr : Nat → Bool)
    (consumerFunc : K → Except E Unit) :
    List (RecvResult K) → Nat → Nat × Except (StreamErr E) Unit
  | [], n => (n, .ok ())
  | r :: rest, n =>
    match r with
    | .eof => (n + 1, .ok ())
    | .canceled => (n + 1, .ok ())
    | .recvError code => (n + 1, .error (.recvError code))
    | .item k =>
      if ctxErr n then (n + 1, .ok ())
      else
        match consumerFunc k with
        | .error e => (n + 1, .error (.consumerError e))
        | .ok _ => ListenToStream ctxErr consumerFunc rest (n + 1)

/-- A run of items the pump consumes cleanly from receive index `n` on: no
context cancellation at their checks and no consumer error. -/
def cleanItems {K E : Type} (ctxErr : Nat → Bool)
    (consumerFunc : K → Except E Unit) : List K → Nat → Bool
  | [], _ => true
  | k :: ks, n =>
    !ctxErr n && (consumerFunc k).isOk && cleanItems ctxErr consumerFunc ks (n + 1)

/-- The pump walks through a clean run of items and continues on the rest of
the stream with the receive counter advanced. -/
theorem ListenToStream_clean_append {K E : Type} (ctxErr : Nat → Bool)
    (consumerFunc : K → Except E Unit) :
    ∀ (pre : List K) (n : Nat) (rest : List (RecvResult K)),
      cleanItems ctxErr consumerFunc pre n = true →
      ListenToStream ctxErr consumerFunc (pre.map RecvResult.item ++ rest) n
        = ListenToStream ctxErr consumerFunc rest (n + pre.length) := by
  intro pre
  induction pre with
  | nil => intro n rest _; simp
  | cons k ks ih =>
    intro n rest hclean
    unfold cleanItems at hclean
    simp only [Bool.and_eq_true, Bool.not_eq_true'] at hclean
    obtain ⟨⟨hctx, hok⟩, hks⟩ := hclean
    cases hf : consumerFunc k with
    | error e => rw [hf] at hok; simp [Except.isOk, Except.toBool] at hok
    | ok _ =>
      simp only [List.map_cons, List.cons_append, ListenToStream, hctx,
        Bool.false_eq_true, if_false, hf]
      rw [show (List.map RecvResult.item ks).append rest
          = List.map RecvResult.item ks ++ rest from rfl]
      rw [ih (n + 1) rest hks]
      rw [List.length_cons]
      congr 1
      omega

/-- C6: after any clean prefix of consumed items, (a) an orderly
end-of-stream receive and (b) a cancellation receive both end the pump with
success; (c) any other receive error is returned as an error; (d) a
consumer error on an item is returned immediately — in every case exactly
one more receive is performed and the rest of the stream is never received,
whatever it contains. -/
theorem stream_pump_shutdown_semantics {K E : Type} (ctxErr : Nat → Bool)
    (consumerFunc : K → Except E Unit) (pre : List K)
    (rest : List (RecvResult K)) (code : Nat) (k : K) (e : E)
    (hclean : cleanItems ctxErr consumerFunc pre 0 = true) :
    (ListenToStream ctxErr consumerFunc (pre.map RecvResult.item ++ .eof :: rest) 0
        = (pre.length + 1, .ok ())) ∧
    (ListenToStream ctxErr consumerFunc (pre.map RecvResult.item ++ .canceled :: rest) 0
        = (pre.length + 1, .ok ())) ∧
    (ListenToStream ctxErr consumerFunc
        (pre.map RecvResult.item ++ .recvError code :: rest) 0
        = (pre.length + 1, .error (.recvError code))) ∧
    (ctxErr pre.length = false → consumerFunc k = .error e →
      ListenToStream ctxErr consumerFunc (pre.map RecvResult.item ++ .item k :: rest) 0
        = (pre.length + 1, .error (.consumerError e))) := by
  refine ⟨?_, ?_, ?_, ?_⟩
  · rw [ListenToStream_clean_append ctxErr consumerFunc pre 0 _ hclean]
    simp [ListenToStream]
  · rw [ListenToStream_clean_append ctxErr consumerFunc pre 0 _ hclean]
    simp [ListenToStream]
  · rw [ListenToStream_clean_append ctxErr consumerFunc pre 0 _ hclean]
    simp [ListenToStream]
  · intro hctx hf
    rw [ListenToStream_clean_append ctxErr consumerFunc pre 0 _ hclean]
    simp [ListenToStream, hctx, hf]

/-- Witness for `stream_pump_shutdown_semantics`: a two-item clean prefix
with a consumer that errors on item `7`, exercised on all four tails. -/
theorem stream_pump_shutdown_semantics_witness :
    cleanItems (fun _ => false)
        (fun x : Nat => if x = 7 then (.error 9 : Except Nat Unit) else .ok ())
        [1, 2] 0 = true ∧
      ListenToStream (fun _ => false)
        (fun x : Nat => if x = 7 then (.error 9 : Except Nat Unit) else .ok ())
        ([1, 2].map RecvResult.item ++ .eof :: [.item 3]) 0 = (3, .ok ()) ∧
      ListenToStream (fun _ => false)
        (fun x : Nat => if x = 7 then (.error 9 : Except Nat Unit) else .ok ())
        ([1, 2].map RecvResult.item ++ .item 7 :: [.item 3]) 0
        = (3, .error (.consumerError 9)) :=
  have h := stream_pump_shutdown_semantics (fun _ => false)
    (fun x : Nat => if x = 7 then (.error 9 : Except Nat Unit) else .ok ())
    [1, 2] [.item 3] 4 7 9 (by decide)
  ⟨by decide, h.1, h.2.2.2 rfl rfl⟩

/-- C7 counterexample: with the governing context already cancelled before
the pump starts, the pump still performs one receive (the count is 1, not
0) — the cancellation check sits after the receive, not at loop-top. -/
theorem stream_pump_receives_despite_cancel :
    (ListenToStream (fun _ => true) (fun _ : Nat => (.ok () : Except Nat Unit))
        [.item 0, .item 1] 0).1 = 1 ∧ (1 : Nat) ≠ 0 :=
  ⟨rfl, by decide⟩

/-- C7 (amended): the pump checks the governing context after each receive,
before dispatching the received item: whenever the context is cancelled at
that check, the pump returns success having performed exactly one more
receive, without dispatching the item and without receiving again. -/
theorem stream_pump_cancel_checked_after_recv {K E : Type} (ctxErr : Nat → Bool)
    (consumerFunc : K → Except E Unit) (k : K) (rest : List (RecvResult K))
    (n : Nat) (h : ctxErr n = true) :
    ListenToStream ctxErr consumerFunc (.item k :: rest) n = (n + 1, .ok ()) := by
  simp [ListenToStream, h]

/-- Witness for `stream_pump_cancel_checked_after_recv` on a concrete
always-cancelled context. -/
theorem stream_pump_cancel_checked_after_recv_witness :
    (fun _ : Nat => true) 0 = true ∧
      ListenToStream (fun _ => true) (fun _ : Nat => (.ok () : Except Nat Unit))
        [.item 5] 0 = (1, .ok ()) :=
  ⟨rfl, stream_pump_cancel_checked_after_recv (fun _ => true)
    (fun _ : Nat => (.ok () : Except Nat Unit)) 5 [] 0 rfl⟩

/-! ## Acceptance notification registry (`tangle_listener.go`) -/

/-- `iotago.BlockID`, abstract. -/
abbrev BlockID := Nat

/-- A `BlockAcceptedCallback`, abstract (an opaque token identifying the
function value). -/
abbrev Callback := Nat

/-- `api.BlockState` values relevant to the listener. -/
inductive BlockState
  | pending
  | accepted
  | confirmed
  | finalized
  | rejected
deriving DecidableEq, Repr

/-- `api.BlockMetadataResponse` (the fields the listener reads). -/
structure BlockMetadata where
  blockID : BlockID
  blockState : BlockState
deriving DecidableEq, Repr

/-- The `TangleListener`'s mutable state: the one-shot callback map, the
`valuenotifier` handles (handle number, key), the notifier's next fresh
handle, plus two observation logs — the callbacks handed to `go f(metadata)`
and the `Notify` calls issued on the notifier. -/
structure TangleListenerState where
  blockAcceptedCallbacks : List (BlockID × Callback)
  notifierListeners : List (Nat × BlockID)
  nextHandle : Nat
  firedCallbacks : List (Callback × BlockMetadata)
  notified : List BlockID
deriving DecidableEq, Repr

/-- Go map lookup on the callback map. -/
def lookupCallback : List (BlockID × Callback) → BlockID → Option Callback
  | [], _ => none
  | (k, f) :: rest, id => if k = id then some f else lookupCallback rest id

/-- Go map `delete` on the callback map. -/
def removeCallback : List (BlockID × Callback) → BlockID → List (BlockID × Callback)
  | [], _ => []
  | (k, f) :: rest, id =>
    if k = id then removeCallback rest id else (k, f) :: removeCallback rest id

/-- Errors of the registration paths: `ErrAlreadyRegistered` (wrapped with
the block ID) or a propagated metadata-query error code. -/
inductive RegistrationErr
  | alreadyRegistered (id : BlockID)
  | queryError (code : Nat)
deriving DecidableEq, Repr

/-- `registerBlockAcceptedCallback` (lowercase, the map insertion):
rejects a block ID that already has an unconsumed callback. -/
def registerBlockAcceptedCallback (st : TangleListenerState)
    (blockID : BlockID) (f : Callback) : Except RegistrationErr TangleListenerState :=
  match lookupCallback st.blockAcceptedCallbacks blockID with
  | some _ => .error (.alreadyRegistered blockID)
  | none =>
    .ok { st with blockAcceptedCallbacks := st.blockAcceptedCallbacks ++ [(blockID, f)] }

/-- `DeregisterBlockAcceptedCallback`. -/
def DeregisterBlockAcceptedCallback (st : TangleListenerState)
    (blockID : BlockID) : TangleListenerState :=
  { st with blockAcceptedCallbacks := removeCallback st.blockAcceptedCallbacks blockID }

/-- `triggerBlockAcceptedCallback`: when a callback is registered for the
metadata's block ID, remove it from the map and invoke it (`go f(metadata)`,
recorded on the fired log — the invocation itself happens asynchronously on
its own goroutine). -/
def triggerBlockAcceptedCallback (st : TangleListenerState)
    (metadata : BlockMetadata) : TangleListenerState :=
  match lookupCallback st.blockAcceptedCallbacks metadata.blockID with
  | some f =>
    { st with
        blockAcceptedCallbacks := removeCallback st.blockAcceptedCallbacks metadata.blockID
        firedCallbacks := st.firedCallbacks ++ [(f, metadata)] }
  | none => st

/-- Outcome of the `BlockMetadata` unary query: gRPC NotFound, another
error code, or the metadata. -/
inductive QueryErrCode
  | notFound
  | other (code : Nat)
deriving DecidableEq, Repr

/-- `BlockState` values the registration paths treat as already accepted. -/
def blockStateDoneOrBetter (s : BlockState) : Prop :=
  s = .accepted ∨ s = .confirmed ∨ s = .finalized

instance (s : BlockState) : Decidable (blockStateDoneOrBetter s) := by
  unfold blockStateDoneOrBetter
  infer_instance

/-- `RegisterBlockAcceptedCallback` (uppercase): register first, then query
the block metadata; NotFound keeps the registration and succeeds, any other
query error is returned with the registration left in place, and an
already-accepted state triggers the callback immediately. -/
def RegisterBlockAcceptedCallback (st : TangleListenerState) (blockID : BlockID)
    (f : Callback) (queryResult : Except QueryErrCode BlockMetadata) :
    TangleListenerState × Option RegistrationErr :=
  match registerBlockAcceptedCallback st blockID f with
  | .error e => (st, some e)
  | .ok st₁ =>
    match queryResult with
    | .error .notFound => (st₁, none)
    | .error (.other code) => (st₁, some (.queryError code))
    | .ok metadata =>
      if blockStateDoneOrBetter metadata.blockState then
        (triggerBlockAcceptedCallback st₁ metadata, none)
      else (st₁, none)

/-- Modelled from the spec: `valuenotifier.Notifier.Listener(id)` (hive.go,
external) returns a fresh waitable handle registered for `id`; any number of
handles may exist per key. -/
def notifierListener (st : TangleListenerState) (id : BlockID) :
    TangleListenerState × Nat :=
  ({ st with
      notifierListeners := st.notifierListeners ++ [(st.nextHandle, id)]
      nextHandle := st.nextHandle + 1 }, st.nextHandle)

/-- Modelled from the spec: `Listener.Deregister()` removes that single
handle, leaving other handles (including others for the same key) alone. -/
def notifierDeregister (st : TangleListenerState) (handle : Nat) :
    TangleListenerState :=
  { st with notifierListeners := st.notifierListeners.filter (fun p => p.1 != handle) }

/-- Modelled from the spec: `Notifier.Notify(id)` signals all current
handles for `id` without deregistering them (recorded on the log). -/
def notifierNotify (st : TangleListenerState) (id : BlockID) : TangleListenerState :=
  { st with notified := st.notified ++ [id] }

/-- `RegisterBlockAcceptedEvent`: create a listener handle, then query the
block metadata; NotFound keeps the handle, any other error deregisters the
freshly created handle and propagates the error, an already-accepted state
notifies the key immediately. -/
def RegisterBlockAcceptedEvent (st : TangleListenerState) (blockID : BlockID)
    (queryResult : Except QueryErrCode BlockMetadata) :
    TangleListenerState × Option Nat × Option RegistrationErr :=
  let (st₁, handle) := notifierListener st blockID
  match queryResult with
  | .error .notFound => (st₁, some handle, none)
  | .error (.other code) => (notifierDeregister st₁ handle, none, some (.queryError code))
  | .ok metadata =>
    if blockStateDoneOrBetter metadata.blockState then
      (notifierNotify st₁ metadata.blockID, some handle, none)
    else (st₁, some handle, none)

/-- Deleting a key removes its binding. -/
theorem lookupCallback_removeCallback (m : List (BlockID × Callback)) (id : BlockID) :
    lookupCallback (removeCallback m id) id = none := by
  induction m with
  | nil => rfl
  | cons p rest ih =>
    obtain ⟨k, f⟩ := p
    by_cases hk : k = id
    · simp [removeCallback, hk, ih]
    · simp [removeCallback, lookupCallback, hk, ih]

/-- Inserting a fresh key makes it found. -/
theorem lookupCallback_append_fresh (m : List (BlockID × Callback)) (id : BlockID)
    (f : Callback) (h : lookupCallback m id = none) :
    lookupCallback (m ++ [(id, f)]) id = some f := by
  induction m with
  | nil => simp [lookupCallback]
  | cons p rest ih =>
    obtain ⟨k, g⟩ := p
    by_cases hk : k = id
    · simp [lookupCallback, hk] at h
    · simp only [lookupCallback, hk, if_neg hk, List.cons_append] at h ⊢
      simp [lookupCallback, hk]
      exact ih h

/-- Removing a freshly appended handle restores the original handle list
when all existing handles are older than the fresh one. -/
theorem filter_fresh_handle (l : List (Nat × BlockID)) (h : Nat) (id : BlockID)
    (hlt : ∀ p ∈ l, p.1 < h) :
    (l ++ [(h, id)]).filter (fun p => p.1 != h) = l := by
  induction l with
  | nil => simp [List.filter]
  | cons p rest ih =>
    have hp : p.1 ≠ h := Nat.ne_of_lt (hlt p (List.mem_cons_self _ _))
    simp only [List.cons_append, List.filter]
    rw [show (p.1 != h) = true by simp [hp]]
    rw [show (rest.append [(h, id)]) = rest ++ [(h, id)] from rfl]
    rw [ih (fun q hq => hlt q (List.mem_cons_of_mem _ hq))]

/-- C4: for the one-shot callback map — registering a callback for a block
ID that already has an unconsumed callback fails with "already registered";
when an acceptance record for that ID is delivered, the matching callback is
removed from the map and handed to a goroutine exactly once (a duplicate
delivery finds no callback and fires nothing); afterwards the same block ID
can be registered again successfully. -/
theorem callback_map_one_shot (st : TangleListenerState) (id : BlockID)
    (f g : Callback) (meta : BlockMetadata)
    (hm : meta.blockID = id)
    (hf : lookupCallback st.blockAcceptedCallbacks id = some f) :
    registerBlockAcceptedCallback st id g = .error (.alreadyRegistered id) ∧
    lookupCallback (triggerBlockAcceptedCallback st meta).blockAcceptedCallbacks id
        = none ∧
    (triggerBlockAcceptedCallback st meta).firedCallbacks
        = st.firedCallbacks ++ [(f, meta)] ∧
    (triggerBlockAcceptedCallback (triggerBlockAcceptedCallback st meta) meta).firedCallbacks
        = (triggerBlockAcceptedCallback st meta).firedCallbacks ∧
    (∃ st' : TangleListenerState,
      registerBlockAcceptedCallback (triggerBlockAcceptedCallback st meta) id g
        = .ok st') := by
  subst hm
  have htrig : triggerBlockAcceptedCallback st meta
      = { st with
            blockAcceptedCallbacks :=
              removeCallback st.blockAcceptedCallbacks meta.blockID
            firedCallbacks := st.firedCallbacks ++ [(f, meta)] } := by
    unfold triggerBlockAcceptedCallback
    rw [hf]
  have hlook : lookupCallback
      (removeCallback st.blockAcceptedCallbacks meta.blockID) meta.blockID = none :=
    lookupCallback_removeCallback _ _
  refine ⟨?_, ?_, ?_, ?_, ?_⟩
  · unfold registerBlockAcceptedCallback
    rw [hf]
  · rw [htrig]
    exact hlook
  · rw [htrig]
  · rw [htrig]
    unfold triggerBlockAcceptedCallback
    dsimp only
    rw [hlook]
  · rw [htrig]
    unfold registerBlockAcceptedCallback
    dsimp only
    rw [hlook]
    exact ⟨_, rfl⟩

/-- A listener state holding one unconsumed callback (`11`) for block `3`. -/
def demoTangleState : TangleListenerState := ⟨[(3, 11)], [], 0, [], []⟩

/-- Witness for `callback_map_one_shot` on `demoTangleState`. -/
theorem callback_map_one_shot_witness :
    (⟨3, .accepted⟩ : BlockMetadata).blockID = 3 ∧
      lookupCallback demoTangleState.blockAcceptedCallbacks 3 = some 11 ∧
      (registerBlockAcceptedCallback demoTangleState 3 12
          = .error (.alreadyRegistered 3) ∧
        lookupCallback (triggerBlockAcceptedCallback demoTangleState
            ⟨3, .accepted⟩).blockAcceptedCallbacks 3 = none ∧
        (triggerBlockAcceptedCallback demoTangleState ⟨3, .accepted⟩).firedCallbacks
            = demoTangleState.firedCallbacks ++ [(11, ⟨3, .accepted⟩)] ∧
        (triggerBlockAcceptedCallback (triggerBlockAcceptedCallback demoTangleState
            ⟨3, .accepted⟩) ⟨3, .accepted⟩).firedCallbacks
            = (triggerBlockAcceptedCallback demoTangleState ⟨3, .accepted⟩).firedCallbacks ∧
        (∃ st' : TangleListenerState,
          registerBlockAcceptedCallback (triggerBlockAcceptedCallback demoTangleState
            ⟨3, .accepted⟩) 3 12 = .ok st')) :=
  ⟨rfl, by decide,
    callback_map_one_shot demoTangleState 3 11 12 ⟨3, .accepted⟩ rfl (by decide)⟩

/-- C5 counterexample: on a metadata-query error other than NotFound,
`RegisterBlockAcceptedEvent` deregisters the freshly created listener handle
(the notifier holds no handle afterwards and no handle is returned), so the
registration is NOT left in place on the multi-listener path. -/
theorem register_event_deregisters_on_query_error :
    (RegisterBlockAcceptedEvent ⟨[], [], 0, [], []⟩ 7
        (.error (.other 13))).1.notifierListeners = [] ∧
      (RegisterBlockAcceptedEvent ⟨[], [], 0, [], []⟩ 7
        (.error (.other 13))).2.1 = none ∧
      (RegisterBlockAcceptedEvent ⟨[], [], 0, [], []⟩ 7
        (.error (.other 13))).2.2 = some (.queryError 13) := by
  decide

/-- C5 (amended): when the register-then-check metadata query fails with any
error other than NotFound, both paths propagate the error to the caller, but
they differ on the registration: the one-shot callback path leaves the
callback-map entry in place (the caller decides whether to deregister),
while the multi-listener path deregisters the freshly created listener
handle before returning (no handle reaches the caller). -/
theorem query_error_registration_paths (st : TangleListenerState) (id : BlockID)
    (f : Callback) (code : Nat)
    (hfree : lookupCallback st.blockAcceptedCallbacks id = none)
    (hh : ∀ p ∈ st.notifierListeners, p.1 < st.nextHandle) :
    ((RegisterBlockAcceptedCallback st id f (.error (.other code))).2
        = some (.queryError code) ∧
      lookupCallback (RegisterBlockAcceptedCallback st id f
          (.error (.other code))).1.blockAcceptedCallbacks id = some f) ∧
    ((RegisterBlockAcceptedEvent st id (.error (.other code))).2.2
        = some (.queryError code) ∧
      (RegisterBlockAcceptedEvent st id (.error (.other code))).2.1 = none ∧
      (RegisterBlockAcceptedEvent st id (.error (.other code))).1.notifierListeners
        = st.notifierListeners) := by
  constructor
  · unfold RegisterBlockAcceptedCallback registerBlockAcceptedCallback
    rw [hfree]
    exact ⟨rfl, lookupCallback_append_fresh _ _ _ hfree⟩
  · unfold RegisterBlockAcceptedEvent notifierListener notifierDeregister
    exact ⟨rfl, rfl, filter_fresh_handle _ _ _ hh⟩

/-- Witness for `query_error_registration_paths`: callback registration for
block `7` stays in the map after a failing query, while the event path's
fresh handle is removed and the pre-existing handle `(0, 9)` survives. -/
theorem query_error_registration_paths_witness :
    lookupCallback ([] : List (BlockID × Callback)) 7 = none ∧
      (∀ p ∈ [((0 : Nat), (9 : BlockID))], p.1 < 1) ∧
      ((RegisterBlockAcceptedCallback ⟨[], [(0, 9)], 1, [], []⟩ 7 21
          (.error (.other 13))).2 = some (.queryError 13) ∧
        lookupCallback (RegisterBlockAcceptedCallback ⟨[], [(0, 9)], 1, [], []⟩ 7 21
            (.error (.other 13))).1.blockAcceptedCallbacks 7 = some 21) ∧
      ((RegisterBlockAcceptedEvent ⟨[], [(0, 9)], 1, [], []⟩ 7
          (.error (.other 13))).2.2 = some (.queryError 13) ∧
        (RegisterBlockAcceptedEvent ⟨[], [(0, 9)], 1, [], []⟩ 7
          (.error (.other 13))).2.1 = none ∧
        (RegisterBlockAcceptedEvent ⟨[], [(0, 9)], 1, [], []⟩ 7
          (.error (.other 13))).1.notifierListeners = [(0, 9)]) :=
  have h := query_error_registration_paths ⟨[], [(0, 9)], 1, [], []⟩ 7 21 13
    (by decide) (by decide)
  ⟨by decide, by decide, h.1, h.2⟩

/-! ## Status listener, revision with protocol-parameter decoding
(`node_status.go`, first revision: manual receive loop, `processNodeStatus`
decoding `CurrentProtocolParameters`) -/

namespace V1

/-- `inx.Commitment` as read by this revision: the `CommitmentInfo`'s index
and ID (nil-safe getters give zero) plus the optional raw commitment. -/
structure INXCommitment where
  commitmentIndex : Nat
  commitmentID : CommitmentID
  commitment : Option RawCommitmentData
deriving DecidableEq, Repr

/-- `commitmentFromINXCommitment` (this revision): `nil, nil` when the
record or its raw commitment is absent, else the decode result paired with
the commitment info's ID. -/
def commitmentFromINXCommitment :
    Option INXCommitment → Except CodecErr (Option Commitment)
  | none => .ok none
  | some ic =>
    match ic.commitment with
    | none => .ok none
    | some raw =>
      match raw.unwrapResult with
      | .error e => .error e
      | .ok dec => .ok (some ⟨ic.commitmentID, dec⟩)

/-- Decoded `iotago.ProtocolParameters`, abstract. -/
abbrev ProtocolParameters := Nat

/-- `inx.RawProtocolParameters`: the version tag, the raw bytes, and the
embedded result of `api.Decode` on those bytes. -/
structure RawProtocolParameters where
  protocolVersion : Nat
  params : Nat
  decodeResult : Except CodecErr ProtocolParameters
deriving DecidableEq, Repr

/-- `supportedProtocolVersion = 2` (node_bridge.go). -/
def supportedProtocolVersion : Nat := 2

/-- Errors of a status update cycle: an unsupported protocol version
("unsupported protocol version %d vs %d") or a parameter decode failure. -/
inductive StatusErr
  | unsupportedVersion (got expected : Nat)
  | decodeError (e : CodecErr)
deriving DecidableEq, Repr

/-- `protocolParametersFromRaw` (node_status.go): reject a version tag other
than the supported one, else decode. -/
def protocolParametersFromRaw (params : RawProtocolParameters) :
    Except StatusErr ProtocolParameters :=
  if params.protocolVersion ≠ supportedProtocolVersion then
    .error (.unsupportedVersion params.protocolVersion supportedProtocolVersion)
  else
    match params.decodeResult with
    | .error e => .error (.decodeError e)
    | .ok p => .ok p

/-- `inx.NodeStatus` as read by this revision. -/
structure NodeStatus where
  isHealthy : Bool
  latestCommitment : Option INXCommitment
  confirmedCommitment : Option INXCommitment
  currentProtocolParameters : RawProtocolParameters
deriving DecidableEq, Repr

/-- Nil-safe `GetLatestCommitment().GetCommitmentInfo().GetCommitmentIndex()`. -/
def NodeStatus.latestIndex (m : NodeStatus) : Nat :=
  match m.latestCommitment with
  | some c => c.commitmentIndex
  | none => 0

/-- Nil-safe `GetConfirmedCommitment().GetCommitmentInfo().GetCommitmentIndex()`. -/
def NodeStatus.confirmedIndex (m : NodeStatus) : Nat :=
  match m.confirmedCommitment with
  | some c => c.commitmentIndex
  | none => 0

/-- The bridge fields this revision guards with `nodeStatusMutex`. -/
structure BridgeState where
  nodeStatus : Option NodeStatus
  protocolParameters : Option ProtocolParameters
deriving DecidableEq, Repr

/-- Zero-valued bridge state. -/
def initBridgeState : BridgeState := ⟨none, none⟩

/-- Previous snapshot's latest index (zero when no snapshot). -/
def stateLatestIndex (st : BridgeState) : Nat :=
  match st.nodeStatus with
  | some prev => prev.latestIndex
  | none => 0

/-- Previous snapshot's confirmed index (zero when no snapshot). -/
def stateConfirmedIndex (st : BridgeState) : Nat :=
  match st.nodeStatus with
  | some prev => prev.confirmedIndex
  | none => 0

/-- The events this revision can trigger. -/
inductive Event
  | latestCommittedSlotChanged (c : Option Commitment)
  | confirmedSlotChanged (c : Option Commitment)
deriving DecidableEq, Repr

/-- `NodeBridge.processNodeStatus` (this revision): flag forward progress of
the two commitment indices against the previous snapshot, replace the raw
snapshot, then decode the embedded protocol parameters — a version mismatch
or decode failure aborts the cycle with an error (the snapshot stays
replaced, the stored parameters stay unchanged, no events fire); on success
store the parameters and fire an event per flagged field whose commitment
decodes. -/
def processNodeStatus (st : BridgeState) (nodeStatus : NodeStatus) :
    BridgeState × List Event × Option StatusErr :=
  let latestMilestoneChanged := nodeStatus.latestIndex > stateLatestIndex st
  let confirmedMilestoneChanged := nodeStatus.confirmedIndex > stateConfirmedIndex st
  let st₁ : BridgeState := { st with nodeStatus := some nodeStatus }
  match protocolParametersFromRaw nodeStatus.currentProtocolParameters with
  | .error e => (st₁, [], some e)
  | .ok protoParams =>
    let st₂ : BridgeState := { st₁ with protocolParameters := some protoParams }
    let latestEvents :=
      if latestMilestoneChanged then
        match commitmentFromINXCommitment nodeStatus.latestCommitment with
        | .ok c => [Event.latestCommittedSlotChanged c]
        | .error _ => []
      else []
    let confirmedEvents :=
      if confirmedMilestoneChanged then
        match commitmentFromINXCommitment nodeStatus.confirmedCommitment with
        | .ok c => [Event.confirmedSlotChanged c]
        | .error _ => []
      else []
    (st₂, latestEvents ++ confirmedEvents, none)

/-- What the status listener logs. -/
inductive LogEntry
  | recvError (code : Nat)
  | processError (e : StatusErr)
deriving DecidableEq, Repr

/-- Result of a run of the `listenToNodeStatus` receive loop. -/
structure ListenResult where
  state : BridgeState
  logs : List LogEntry
  events : List Event
  returned : Option Nat
deriving DecidableEq, Repr

/-- The `listenToNodeStatus` receive loop (this revision): receive; EOF and
cancellation break silently; any other receive error is logged and breaks;
then the context is checked; then `processNodeStatus` runs and its error is
logged and breaks the loop.  In every case the function returns nil (no
stream-level error).  The outcome list models the successive receives; an
exhausted list ends the modelled window. -/
def listenToNodeStatus (ctxErr : Nat → Bool) :
    BridgeState → List (RecvResult NodeStatus) → Nat → ListenResult
  | st, [], _ => ⟨st, [], [], none⟩
  | st, r :: rest, n =>
    match r with
    | .eof => ⟨st, [], [], none⟩
    | .canceled => ⟨st, [], [], none⟩
    | .recvError code => ⟨st, [.recvError code], [], none⟩
    | .item msg =>
      if ctxErr n then ⟨st, [], [], none⟩
      else
        match processNodeStatus st msg with
        | (st', evts, some e) => ⟨st', [.processError e], evts, none⟩
        | (st', evts, none) =>
          let r := listenToNodeStatus ctxErr st' rest (n + 1)
          ⟨r.state, r.logs, evts ++ r.events, r.returned⟩

/-- A healthy status carrying supported-version parameters decoding to `41`. -/
def demoGood1 : NodeStatus := ⟨true, none, none, ⟨2, 0, .ok 41⟩⟩

/-- A status whose parameter blob carries unsupported protocol version `9`. -/
def demoBad : NodeStatus := ⟨true, none, none, ⟨9, 0, .ok 99⟩⟩

/-- A later valid status decoding to `42`. -/
def demoGood2 : NodeStatus := ⟨true, none, none, ⟨2, 0, .ok 42⟩⟩

/-- The listener run over good, bad, good statuses. -/
def demoStatusRun : ListenResult :=
  listenToNodeStatus (fun _ => false) initBridgeState
    [.item demoGood1, .item demoBad, .item demoGood2] 0

end V1

/-- C8 counterexample: a status update with an unrecognized
protocol-parameters version fails its cycle, is logged, and raises no
stream-level error (nil is returned) — but the listener does NOT continue:
the loop breaks, so the subsequent valid update (decoding to `42`) is never
processed (the stored parameters still come from the first update and the
stored snapshot is the malformed one). -/
theorem status_listener_stops_on_bad_params :
    V1.demoStatusRun.returned = none ∧
      V1.demoStatusRun.logs = [.processError (.unsupportedVersion 9 2)] ∧
      V1.demoStatusRun.state.protocolParameters = some 41 ∧
      V1.demoStatusRun.state.nodeStatus = some V1.demoBad ∧
      V1.demoBad ≠ V1.demoGood2 := by
  decide

/-- C8 (amended): when a node-status update carries a protocol-parameters
blob the bridge rejects (or that fails to decode), that update cycle fails,
the failure is logged, and no stream-level error is raised — but the status
listener stops at that update: the receive loop breaks after logging and
processes none of the remaining updates. -/
theorem status_listener_logs_and_stops (ctxErr : Nat → Bool)
    (st : V1.BridgeState) (msg : V1.NodeStatus)
    (rest : List (RecvResult V1.NodeStatus)) (n : Nat)
    (st' : V1.BridgeState) (evts : List V1.Event) (e : V1.StatusErr)
    (hctx : ctxErr n = false)
    (hp : V1.processNodeStatus st msg = (st', evts, some e)) :
    V1.listenToNodeStatus ctxErr st (.item msg :: rest) n
      = ⟨st', [.processError e], evts, none⟩ := by
  simp [V1.listenToNodeStatus, hctx, hp]

/-- Witness for `status_listener_logs_and_stops`: the bad-version update on
the initial state, with a further valid update pending that is discarded. -/
theorem status_listener_logs_and_stops_witness :
    (fun _ : Nat => false) 0 = false ∧
      V1.processNodeStatus V1.initBridgeState V1.demoBad
        = (⟨some V1.demoBad, none⟩, [], some (.unsupportedVersion 9 2)) ∧
      V1.listenToNodeStatus (fun _ => false) V1.initBridgeState
          [.item V1.demoBad, .item V1.demoGood2] 0
        = ⟨⟨some V1.demoBad, none⟩, [.processError (.unsupportedVersion 9 2)], [], none⟩ :=
  ⟨rfl, by decide,
    status_listener_logs_and_stops (fun _ => false) V1.initBridgeState V1.demoBad
      [.item V1.demoGood2] 0 ⟨some V1.demoBad, none⟩ [] (.unsupportedVersion 9 2)
      rfl (by decide)⟩

/-! ## Proof-of-work miner (`pow/pow.go`) -/

/-- The block `DoPoW` mutates: parent references, the trailing nonce, and an
abstract body determining its serialization. -/
structure PowBlock where
  strongParents : List Nat
  nonce : Nat
  body : Nat
deriving DecidableEq, Repr

/-- The protocol parameters `DoPoW` reads (`MinPoWScore`). -/
structure PowProtocolParameters where
  minPoWScore : Nat
deriving DecidableEq, Repr

/-- Errors of `DoPoW`: `ErrOperationAborted`, `ErrParentsNotGiven`, a
refresh-function error, a serialization error, a miner error, or the end of
the modelled window of search attempts (the real loop would keep retrying). -/
inductive PowErr
  | operationAborted
  | parentsNotGiven
  | refreshError (code : Nat)
  | encodeError (code : Nat)
  | mineError (code : Nat)
  | searchWindowExhausted
deriving DecidableEq, Repr

/-- Outcome of one `pow.New(parallelism).Mine(...)` call: a nonce meeting
the target, `pow.ErrCancelled` (timeout or context cancellation), or another
miner error. -/
inductive MineOutcome
  | found (nonce : Nat)
  | cancelled
  | failed (code : Nat)
deriving DecidableEq, Repr

/-- The external collaborators of `DoPoW`, embedded as data: the context's
cancellation at each check, the serializer, the outcomes of successive miner
runs and of successive tip refreshes, and whether a refresh function was
supplied at all. -/
structure PowEnv where
  ctxCanceled : Nat → Bool
  encode : PowBlock → Except Nat (List Nat)
  mineOutcomes : List MineOutcome
  refreshOutcomes : List (Except Nat (List Nat))
  hasRefresh : Bool

/-- `nonceBytes = 8`. -/
def nonceBytes : Nat := 8

/-- `getPoWData`: serialize the block and strip the trailing nonce field. -/
def getPoWData (env : PowEnv) (block : PowBlock) : Except PowErr (List Nat) :=
  match env.encode block with
  | .error code => .error (.encodeError code)
  | .ok blockData => .ok (blockData.take (blockData.length - nonceBytes))

/-- The retry loop of `DoPoW`: run the miner; a found nonce is written into
the block and the encoded size returned; on `pow.ErrCancelled` with a
refresh function, refresh the tips (propagating refresh or re-serialization
errors), then — after the context check that turns any failure into
`ErrOperationAborted` — retry with the fresh prefix; without a refresh
function `pow.ErrCancelled` simply retries; any other miner error is
returned (or aborted when the context is cancelled). -/
def powLoop (env : PowEnv) :
    List MineOutcome → List (Except Nat (List Nat)) → Nat → PowBlock → List Nat →
      Except PowErr (PowBlock × Nat)
  | [], _, _, _, _ => .error .searchWindowExhausted
  | m :: ms, refreshes, i, block, powData =>
    match m with
    | .found nonce => .ok ({ block with nonce := nonce }, powData.length + nonceBytes)
    | .failed code =>
      if env.ctxCanceled i then .error .operationAborted
      else .error (.mineError code)
    | .cancelled =>
      if env.hasRefresh then
        match refreshes with
        | [] => .error .searchWindowExhausted
        | r :: rs =>
          match r with
          | .error code =>
            if env.ctxCanceled i then .error .operationAborted
            else .error (.refreshError code)
          | .ok tips =>
            match getPoWData env { block with strongParents := tips } with
            | .error e =>
              if env.ctxCanceled i then .error .operationAborted else .error e
            | .ok pd =>
              if env.ctxCanceled i then .error .operationAborted
              else powLoop env ms rs (i + 1) { block with strongParents := tips } pd
      else
        if env.ctxCanceled i then .error .operationAborted
        else powLoop env ms refreshes (i + 1) block powData

/-- `DoPoW` (pow.go): select initial parents when none are given (failing
with `ErrParentsNotGiven` without a refresh function); a zero minimum work
score is trivially satisfied with nonce 0; otherwise check the context,
serialize the search prefix, and enter the retry loop. -/
def DoPoW (env : PowEnv) (block : PowBlock)
    (protoParams : PowProtocolParameters) : Except PowErr (PowBlock × Nat) :=
  let parentsStep : Except PowErr (PowBlock × List (Except Nat (List Nat))) :=
    if block.strongParents.isEmpty then
      if env.hasRefresh then
        match env.refreshOutcomes with
        | [] => .error .searchWindowExhausted
        | r :: rs =>
          match r with
          | .error code => .error (.refreshError code)
          | .ok tips => .ok ({ block with strongParents := tips }, rs)
      else .error .parentsNotGiven
    else .ok (block, env.refreshOutcomes)
  match parentsStep with
  | .error e => .error e
  | .ok (block, refreshes) =>
    if protoParams.minPoWScore = 0 then .ok ({ block with nonce := 0 }, 0)
    else if env.ctxCanceled 0 then .error .operationAborted
    else
      match getPoWData env block with
      | .error e => .error e
      | .ok powData => powLoop env env.mineOutcomes refreshes 1 block powData

/-- C9: for every call to `DoPoW` on a block that has parent references,
when the minimum work score is zero, the block's nonce is set to 0 and the
function returns immediately — for every environment, so no miner run, no
serialization, no refresh and no context check is consulted. -/
theorem dopow_zero_target (env : PowEnv) (block : PowBlock)
    (protoParams : PowProtocolParameters)
    (hparents : block.strongParents ≠ [])
    (hscore : protoParams.minPoWScore = 0) :
    DoPoW env block protoParams = .ok ({ block with nonce := 0 }, 0) := by
  have hempty : block.strongParents.isEmpty = false := by
    cases hb : block.strongParents with
    | nil => exact absurd hb hparents
    | cons a l => rfl
  unfold DoPoW
  rw [hempty]
  rw [if_neg Bool.false_ne_true]
  dsimp only
  rw [if_pos hscore]

/-- Witness for `dopow_zero_target`: even with an always-cancelled context,
a failing serializer, no miner outcomes and no refresh function, a
zero-score target returns nonce 0 immediately. -/
theorem dopow_zero_target_witness :
    ([1] : List Nat) ≠ [] ∧
      (⟨0⟩ : PowProtocolParameters).minPoWScore = 0 ∧
      DoPoW ⟨fun _ => true, fun _ => .error 0, [], [], false⟩ ⟨[1], 7, 5⟩ ⟨0⟩
        = .ok (⟨[1], 0, 5⟩, 0) :=
  ⟨by decide, rfl,
    dopow_zero_target ⟨fun _ => true, fun _ => .error 0, [], [], false⟩
      ⟨[1], 7, 5⟩ ⟨0⟩ (by decide) rfl⟩

end InxApp
